import Mathlib

/-!
# Joker numeric tower (`numbers.go`)

A shallow embedding of the numeric tower of `numbers.go`: the five operator
tables, the promotion lattice `Combine`, the conversion protocol of the five
numeric kinds, the arithmetic and comparison entries of the tables and the
comparator `CompareNumbers`.

Conventions of the embedding.

* `big.Int` is `ℤ` and `big.Rat` is `ℚ` (a fraction in lowest terms with a
  positive denominator, which is the normal form `math/big` keeps). The pair of
  integers that `math/big` stores for a fraction, with the cross-multiplication
  and the division by the greatest common divisor that each operation performs,
  is `big.RatRep` below; that the pair so computed is the one `ℚ` holds is
  proved, not assumed.
* Go `int` / `int64` is a Lean integer in the range `[-2^63, 2^63)`; every
  operation that can overflow is followed by `wrap64`.
* `float64` is the datatype `Float64` below: a sign, a 53-bit significand and
  an exponent, the two infinities and NaN; conversions to it round to nearest,
  ties to even.
* `big.Float` is the datatype `big.Float` below, a finite dyadic value or an
  infinity.
* A Go panic is an `Except.error`; a nil pointer result is `none`.
-/

namespace Joker

/-! ## Operator tables and the promotion lattice -/

/-- The five operator tables `IntOps`, `DoubleOps`, `BigIntOps`, `BigFloatOps`,
`RatioOps` (the implementers of the interface `Ops`). -/
inductive Ops
  | IntOps
  | DoubleOps
  | BigIntOps
  | BigFloatOps
  | RatioOps
  deriving DecidableEq, Repr

/-- The method `func (ops IntOps) Combine(other Ops) Ops`. -/
def IntOps.Combine (other : Ops) : Ops := other

/-- The method `func (ops DoubleOps) Combine(other Ops) Ops`. -/
def DoubleOps.Combine (other : Ops) : Ops :=
  match other with
  | Ops.BigFloatOps => other
  | _ => Ops.DoubleOps

/-- The method `func (ops BigIntOps) Combine(other Ops) Ops`. -/
def BigIntOps.Combine (other : Ops) : Ops :=
  match other with
  | Ops.IntOps => Ops.BigIntOps
  | _ => other

/-- The method `func (ops BigFloatOps) Combine(other Ops) Ops`. -/
def BigFloatOps.Combine (_other : Ops) : Ops := Ops.BigFloatOps

/-- The method `func (ops RatioOps) Combine(other Ops) Ops`. -/
def RatioOps.Combine (other : Ops) : Ops :=
  match other with
  | Ops.DoubleOps => other
  | Ops.BigFloatOps => other
  | _ => Ops.RatioOps

/-- Interface dispatch of `ops.Combine(other)` on the dynamic type of `ops`. -/
def Ops.Combine (ops other : Ops) : Ops :=
  match ops with
  | Ops.IntOps => IntOps.Combine other
  | Ops.DoubleOps => DoubleOps.Combine other
  | Ops.BigIntOps => BigIntOps.Combine other
  | Ops.BigFloatOps => BigFloatOps.Combine other
  | Ops.RatioOps => RatioOps.Combine other

/-- The rank table of the specification:
`Integer:0, BigInteger:1, Rational:2, Float:3, BigFloat:4`. -/
def Ops.rank : Ops → Nat
  | Ops.IntOps => 0
  | Ops.BigIntOps => 1
  | Ops.RatioOps => 2
  | Ops.DoubleOps => 3
  | Ops.BigFloatOps => 4

/-- The table that has a given rank (ranks above 4 are clamped to BigFloat). -/
def Ops.ofRank : Nat → Ops
  | 0 => Ops.IntOps
  | 1 => Ops.BigIntOps
  | 2 => Ops.RatioOps
  | 3 => Ops.DoubleOps
  | _ => Ops.BigFloatOps

/-- The simplification recommended by the specification: look both ranks up and
take the table of the greater one. -/
def combineByRank (a b : Ops) : Ops := Ops.ofRank (max a.rank b.rank)

/-! ## Machine integers, panics -/

/-- Go run-time panics raised by the embedded code: `big.NewRat` and `Rat.Quo`
panic with "division by zero", `big.NewFloat` panics with `ErrNaN`, and a nil
`*big.Int` or `*big.Rat` panics when it is dereferenced. -/
inductive Panic
  | divisionByZero
  | errNaN
  | nilPointer
  deriving DecidableEq

deriving instance DecidableEq for Except

/-- The range of Go `int64` (and of `int` on the 64-bit targets). -/
def inInt64 (z : ℤ) : Prop := -2 ^ 63 ≤ z ∧ z < 2 ^ 63

instance (z : ℤ) : Decidable (inInt64 z) := by
  unfold inInt64
  infer_instance

/-- Two's-complement narrowing to 64 bits: the value congruent to `z` modulo
`2^64` in `[-2^63, 2^63)`. It is what `big.Int.Int64` returns and what `int`
arithmetic produces on overflow. -/
def wrap64 (z : ℤ) : ℤ := (z + 2 ^ 63) % 2 ^ 64 - 2 ^ 63

/-! ## `float64` -/

/-- Modelled from the spec: the struct `Double` (one field `d float64`) is
declared outside `numbers.go`; its payload is an IEEE-754 double, here a sign,
a significand and an exponent (value `±mant * 2^exp`), an infinity or NaN. -/
inductive Float64
  | finite (neg : Bool) (mant : ℕ) (exp : ℤ)
  | inf (neg : Bool)
  | nan
  deriving DecidableEq

/-- The representable triples: a significand below `2^53`, an exponent in
`[-1074, 971]`, and a significand below `2^52` only at the least exponent
(subnormals and zeros). Every double has exactly one such triple. -/
def Float64.WF : Float64 → Prop
  | Float64.finite _ mant exp =>
      mant < 2 ^ 53 ∧ -1074 ≤ exp ∧ exp ≤ 971 ∧ (mant < 2 ^ 52 → exp = -1074)
  | _ => True

/-- The rational denoted by a sign, a significand and a binary exponent. -/
def finVal (neg : Bool) (mant : ℕ) (exp : ℤ) : ℚ :=
  (if neg then -1 else 1) * (mant : ℚ) * 2 ^ exp

/-- The integer obtained by truncating `±mant * 2^exp` toward zero. -/
def finTrunc (neg : Bool) (mant : ℕ) (exp : ℤ) : ℤ :=
  (if neg then -1 else 1) *
    (if 0 ≤ exp then (mant * 2 ^ exp.toNat : ℕ) else (mant / 2 ^ (-exp).toNat : ℕ))

/-- Round-to-nearest, ties-to-even, of the magnitude `q` to a double carrying
the sign `neg`: the rounding of `float64(i)` for an integer `i`, of
`big.Rat.Float64` and of `big.Float.Float64`. Magnitudes that round beyond the
largest finite double give an infinity; a zero result keeps the sign. -/
def Float64.round (neg : Bool) (q : ℚ) : Float64 :=
  if q ≤ 0 then Float64.finite neg 0 (-1074)
  else
    let e : ℤ := max (Int.log 2 q - 52) (-1074)
    let t : ℚ := q / 2 ^ e
    let f : ℕ := ⌊t⌋₊
    let r : ℚ := t - f
    let m : ℕ :=
      if r < 1 / 2 then f
      else if 1 / 2 < r then f + 1
      else if f % 2 = 0 then f else f + 1
    let me : ℕ × ℤ := if m = 2 ^ 53 then (2 ^ 52, e + 1) else (m, e)
    if 971 < me.2 then Float64.inf neg else Float64.finite neg me.1 me.2

/-- The conversion `float64(i)` of an `int64`. -/
def Float64.ofInt (i : ℤ) : Float64 := Float64.round (decide (i < 0)) |(i : ℚ)|

/-- The conversions `int(f)` and `int64(f)`: truncation toward zero. When the
truncated value does not fit (or `f` is an infinity or NaN) the Go
specification leaves the result to the implementation; the value modelled is
the one of amd64, `-2^63`. -/
def Float64.toInt64 : Float64 → ℤ
  | Float64.finite neg mant exp =>
      if inInt64 (finTrunc neg mant exp) then finTrunc neg mant exp else -2 ^ 63
  | _ => -2 ^ 63

/-- The comparison `x < y` of two doubles (false when either is NaN, and the
two zeros are equal). -/
def Float64.lt : Float64 → Float64 → Bool
  | Float64.nan, _ => false
  | _, Float64.nan => false
  | Float64.inf n1, Float64.inf n2 => n1 && !n2
  | Float64.inf n1, Float64.finite _ _ _ => n1
  | Float64.finite _ _ _, Float64.inf n2 => !n2
  | Float64.finite n1 m1 e1, Float64.finite n2 m2 e2 =>
      decide (finVal n1 m1 e1 < finVal n2 m2 e2)

/-- The comparison `x == y` of two doubles (false when either is NaN, and the
two zeros are equal). -/
def Float64.eq : Float64 → Float64 → Bool
  | Float64.nan, _ => false
  | _, Float64.nan => false
  | Float64.inf n1, Float64.inf n2 => n1 == n2
  | Float64.inf _, Float64.finite _ _ _ => false
  | Float64.finite _ _ _, Float64.inf _ => false
  | Float64.finite n1 m1 e1, Float64.finite n2 m2 e2 =>
      decide (finVal n1 m1 e1 = finVal n2 m2 e2)

/-- The method `big.Rat.SetFloat64`: the exact value of a finite double, nil
for an infinity or NaN. -/
def Float64.SetFloat64 : Float64 → Option ℚ
  | Float64.finite neg mant exp => some (finVal neg mant exp)
  | _ => none

/-- The method `big.Rat.Float64`: the nearest double of a fraction. -/
def Rat_Float64 (r : ℚ) : Float64 := Float64.round (decide (r < 0)) |r|

/-! ## `big.Float` -/

/-- The values of `big.Float`: a finite `±mant * 2^exp` (zero when `mant` is 0)
or an infinity. The precision and rounding-mode fields are left out: no
function embedded here reads them. -/
inductive big.Float
  | finite (neg : Bool) (mant : ℕ) (exp : ℤ)
  | inf (neg : Bool)
  deriving DecidableEq

/-- The function `big.NewFloat`: the exact value of the double; panics with
`ErrNaN` on NaN. -/
def big.NewFloat : Float64 → Except Panic big.Float
  | Float64.finite neg mant exp => Except.ok (big.Float.finite neg mant exp)
  | Float64.inf neg => Except.ok (big.Float.inf neg)
  | Float64.nan => Except.error Panic.errNaN

/-- The method `big.Float.SetInt` on a zero-precision receiver: exact. -/
def big.Float.SetInt (z : ℤ) : big.Float := big.Float.finite (decide (z < 0)) z.natAbs 0

/-- The method `big.Float.Cmp`: -1, 0 or +1 by value. -/
def big.Float.Cmp : big.Float → big.Float → ℤ
  | big.Float.inf n1, big.Float.inf n2 => if n1 = n2 then 0 else if n1 then -1 else 1
  | big.Float.inf n1, big.Float.finite _ _ _ => if n1 then -1 else 1
  | big.Float.finite _ _ _, big.Float.inf n2 => if n2 then 1 else -1
  | big.Float.finite n1 m1 e1, big.Float.finite n2 m2 e2 =>
      if finVal n1 m1 e1 < finVal n2 m2 e2 then -1
      else if finVal n2 m2 e2 < finVal n1 m1 e1 then 1 else 0

/-- The method `big.Float.Int64`: truncation toward zero, saturating at the
ends of the `int64` range. -/
def big.Float.Int64 : big.Float → ℤ
  | big.Float.finite neg mant exp =>
      if finTrunc neg mant exp < -2 ^ 63 then -2 ^ 63
      else if 2 ^ 63 ≤ finTrunc neg mant exp then 2 ^ 63 - 1
      else finTrunc neg mant exp
  | big.Float.inf neg => if neg then -2 ^ 63 else 2 ^ 63 - 1

/-- The method `big.Float.Int` with a nil argument: truncation toward zero,
nil for an infinity. -/
def big.Float.Int : big.Float → Option ℤ
  | big.Float.finite neg mant exp => some (finTrunc neg mant exp)
  | big.Float.inf _ => none

/-- The method `big.Float.Float64`: the nearest double. -/
def big.Float.Float64 : big.Float → Float64
  | big.Float.finite neg mant exp => Float64.round neg ((mant : ℚ) * 2 ^ exp)
  | big.Float.inf neg => Float64.inf neg

/-! ## Numbers and the conversion protocol -/

/-- Modelled from the spec: the five numeric kinds `Int`, `Double`, `BigInt`,
`BigFloat` and `Ratio` are structs declared outside `numbers.go`, each holding
one representation (`int`, `float64`, `big.Int`, `big.Float`, `big.Rat`). -/
inductive Number
  | int (i : ℤ)
  | double (d : Float64)
  | bigInt (b : ℤ)
  | bigFloat (b : big.Float)
  | ratio (r : ℚ)
  deriving DecidableEq

/-- Modelled from the spec: `Object` is the interface of all run-time values,
declared outside `numbers.go`; a value is a number or something else. -/
inductive Object
  | number (n : Number)
  | other

/-- A number the run time can hold: an `Int` within the `int` range and a
`Double` that is a representable double. -/
def Number.WF : Number → Prop
  | Number.int i => inInt64 i
  | Number.double d => d.WF
  | _ => True

/-- The function `GetOps`. -/
def GetOps (obj : Object) : Ops :=
  match obj with
  | Object.number (Number.double _) => Ops.DoubleOps
  | Object.number (Number.bigInt _) => Ops.BigIntOps
  | Object.number (Number.bigFloat _) => Ops.BigFloatOps
  | Object.number (Number.ratio _) => Ops.RatioOps
  | _ => Ops.IntOps

/-- The methods `Int()` of the five kinds. -/
def Number.Int : Number → ℤ
  | Number.int i => i
  | Number.double d => d.toInt64
  | Number.bigInt b => wrap64 b
  | Number.bigFloat b => b.Int64
  | Number.ratio r => (Rat_Float64 r).toInt64

/-- The methods `Double()` of the five kinds. -/
def Number.Double : Number → Float64
  | Number.int i => Float64.ofInt i
  | Number.double d => d
  | Number.bigInt b => Float64.ofInt (wrap64 b)
  | Number.bigFloat b => b.Float64
  | Number.ratio r => Rat_Float64 r

/-- The methods `BigInt()` of the five kinds; `none` is a nil pointer. -/
def Number.BigInt : Number → Option ℤ
  | Number.int i => some i
  | Number.double d => some d.toInt64
  | Number.bigInt b => some b
  | Number.bigFloat b => b.Int
  | Number.ratio r => some (Rat_Float64 r).toInt64

/-- The methods `BigFloat()` of the five kinds. -/
def Number.BigFloat : Number → Except Panic big.Float
  | Number.int i => big.NewFloat (Float64.ofInt i)
  | Number.double d => big.NewFloat d
  | Number.bigInt b => Except.ok (big.Float.SetInt b)
  | Number.bigFloat b => Except.ok b
  | Number.ratio r => big.NewFloat (Rat_Float64 r)

/-- The methods `Ratio()` of the five kinds; `none` is a nil pointer. -/
def Number.Ratio : Number → Option ℚ
  | Number.int i => some (i : ℚ)
  | Number.double d => d.SetFloat64
  | Number.bigInt b => some (b : ℚ)
  | Number.bigFloat b => b.Float64.SetFloat64
  | Number.ratio r => some r

/-! ## `big.Int` and `big.Rat` entry points used by the tables -/

/-- The function `big.NewRat(a, b)`: the fraction `a/b` in lowest terms; panics
with "division by zero" when `b` is 0. -/
def big.NewRat (a b : ℤ) : Except Panic ℚ :=
  if b = 0 then Except.error Panic.divisionByZero else Except.ok (Rat.divInt a b)

/-- The method `z.Add(x, y)` of `big.Int`; a nil operand panics. -/
def big.Int.Add : Option ℤ → Option ℤ → Except Panic ℤ
  | some a, some b => Except.ok (a + b)
  | _, _ => Except.error Panic.nilPointer

/-- The method `x.Cmp(y)` of `big.Int`: -1, 0 or +1. Identical pointers (here:
both nil) compare equal before any dereference; one nil operand panics. -/
def big.Int.Cmp : Option ℤ → Option ℤ → Except Panic ℤ
  | some a, some b => Except.ok (if a < b then -1 else if b < a then 1 else 0)
  | none, none => Except.ok 0
  | _, _ => Except.error Panic.nilPointer

/-- The method `z.Add(x, y)` of `big.Rat`; a nil operand panics. -/
def big.Rat.Add : Option ℚ → Option ℚ → Except Panic ℚ
  | some a, some b => Except.ok (a + b)
  | _, _ => Except.error Panic.nilPointer

/-- The method `z.Quo(x, y)` of `big.Rat`: it first tests the divisor and
panics with "division by zero" when it is 0; a nil operand panics. -/
def big.Rat.Quo : Option ℚ → Option ℚ → Except Panic ℚ
  | _, none => Except.error Panic.nilPointer
  | x, some b =>
      if b = 0 then Except.error Panic.divisionByZero
      else
        match x with
        | some a => Except.ok (a / b)
        | none => Except.error Panic.nilPointer

/-- The method `x.Cmp(y)` of `big.Rat`: -1, 0 or +1; a nil operand panics. -/
def big.Rat.Cmp : Option ℚ → Option ℚ → Except Panic ℤ
  | some a, some b => Except.ok (if a < b then -1 else if b < a then 1 else 0)
  | _, _ => Except.error Panic.nilPointer

/-! ## Operator tables: Add, Divide, Lt -/

/-- The method `func (ops BigIntOps) Add(x, y Number) Number`. -/
def BigIntOps.Add (x y : Number) : Except Panic Number :=
  match big.Int.Add x.BigInt y.BigInt with
  | Except.ok b => Except.ok (Number.bigInt b)
  | Except.error e => Except.error e

/-- The method `func (ops RatioOps) Add(x, y Number) Number`. -/
def RatioOps.Add (x y : Number) : Except Panic Number :=
  match big.Rat.Add x.Ratio y.Ratio with
  | Except.ok r => Except.ok (Number.ratio r)
  | Except.error e => Except.error e

/-- The method `func (ops IntOps) Divide(x, y Number) Number`. -/
def IntOps.Divide (x y : Number) : Except Panic Number :=
  match big.NewRat x.Int y.Int with
  | Except.ok b =>
      if b.isInt then Except.ok (Number.int (wrap64 b.num))
      else Except.ok (Number.ratio b)
  | Except.error e => Except.error e

/-- The method `func (ops BigIntOps) Divide(x, y Number) Number`. -/
def BigIntOps.Divide (x y : Number) : Except Panic Number :=
  match big.Rat.Quo x.Ratio y.Ratio with
  | Except.ok b =>
      if b.isInt then Except.ok (Number.bigInt b.num)
      else Except.ok (Number.ratio b)
  | Except.error e => Except.error e

/-- The method `func (ops RatioOps) Divide(x, y Number) Number`. -/
def RatioOps.Divide (x y : Number) : Except Panic Number :=
  match big.Rat.Quo x.Ratio y.Ratio with
  | Except.ok r => Except.ok (Number.ratio r)
  | Except.error e => Except.error e

/-- The method `func (ops IntOps) Lt(x Number, y Number) bool`. -/
def IntOps.Lt (x y : Number) : Except Panic Bool :=
  Except.ok (decide (x.Int < y.Int))

/-- The method `func (ops DoubleOps) Lt(x Number, y Number) bool`. -/
def DoubleOps.Lt (x y : Number) : Except Panic Bool :=
  Except.ok (Float64.lt x.Double y.Double)

/-- The method `func (ops BigIntOps) Lt(x Number, y Number) bool`. -/
def BigIntOps.Lt (x y : Number) : Except Panic Bool :=
  match big.Int.Cmp x.BigInt y.BigInt with
  | Except.ok c => Except.ok (decide (c < 0))
  | Except.error e => Except.error e

/-- The method `func (ops BigFloatOps) Lt(x Number, y Number) bool`. -/
def BigFloatOps.Lt (x y : Number) : Except Panic Bool :=
  match x.BigFloat with
  | Except.error e => Except.error e
  | Except.ok a =>
      match y.BigFloat with
      | Except.error e => Except.error e
      | Except.ok b => Except.ok (decide (big.Float.Cmp a b < 0))

/-- The method `func (ops RatioOps) Lt(x Number, y Number) bool`. -/
def RatioOps.Lt (x y : Number) : Except Panic Bool :=
  match big.Rat.Cmp x.Ratio y.Ratio with
  | Except.ok c => Except.ok (decide (c < 0))
  | Except.error e => Except.error e

/-- Interface dispatch of `ops.Lt(x, y)` on the dynamic type of `ops`. -/
def Ops.Lt (ops : Ops) (x y : Number) : Except Panic Bool :=
  match ops with
  | Ops.IntOps => IntOps.Lt x y
  | Ops.DoubleOps => DoubleOps.Lt x y
  | Ops.BigIntOps => BigIntOps.Lt x y
  | Ops.BigFloatOps => BigFloatOps.Lt x y
  | Ops.RatioOps => RatioOps.Lt x y

/-- The function `CompareNumbers`. -/
def CompareNumbers (x y : Number) : Except Panic ℤ :=
  let ops := (GetOps (Object.number x)).Combine (GetOps (Object.number y))
  match ops.Lt x y with
  | Except.error e => Except.error e
  | Except.ok true => Except.ok (-1)
  | Except.ok false =>
      match ops.Lt y x with
      | Except.error e => Except.error e
      | Except.ok true => Except.ok 1
      | Except.ok false => Except.ok 0

/-! ## Operator tables: the remaining entries -/

/-- The method `func (ops IntOps) Add(x, y Number) Number`: the sum of two
`int`s, wrapped on overflow. -/
def IntOps.Add (x y : Number) : Except Panic Number :=
  Except.ok (Number.int (wrap64 (x.Int + y.Int)))

/-- The method `func (ops IntOps) Subtract(x, y Number) Number`. -/
def IntOps.Subtract (x y : Number) : Except Panic Number :=
  Except.ok (Number.int (wrap64 (x.Int - y.Int)))

/-- The method `func (ops IntOps) Multiply(x, y Number) Number`. -/
def IntOps.Multiply (x y : Number) : Except Panic Number :=
  Except.ok (Number.int (wrap64 (x.Int * y.Int)))

/-- The quotient `x / y` of two doubles: NaN when an operand is NaN, for
`∞ / ∞` and for `0 / 0`; an infinity for a non-zero dividend over zero and for
an infinity over a finite divisor; a zero for a finite dividend over an
infinity; otherwise the exact quotient rounded to nearest, ties to even. The
sign of the result is the exclusive or of the signs. -/
def Float64.div : Float64 → Float64 → Float64
  | Float64.nan, _ => Float64.nan
  | _, Float64.nan => Float64.nan
  | Float64.inf _, Float64.inf _ => Float64.nan
  | Float64.inf n1, Float64.finite n2 _ _ => Float64.inf (xor n1 n2)
  | Float64.finite n1 _ _, Float64.inf n2 => Float64.finite (xor n1 n2) 0 (-1074)
  | Float64.finite n1 m1 e1, Float64.finite n2 m2 e2 =>
      if m2 = 0 then
        if m1 = 0 then Float64.nan else Float64.inf (xor n1 n2)
      else Float64.round (xor n1 n2) (((m1 : ℚ) * 2 ^ e1) / ((m2 : ℚ) * 2 ^ e2))

/-- The method `func (ops DoubleOps) Divide(x, y Number) Number`. -/
def DoubleOps.Divide (x y : Number) : Except Panic Number :=
  Except.ok (Number.double (Float64.div x.Double y.Double))

/-- The method `z.Sub(x, y)` of `big.Rat`; a nil operand panics. -/
def big.Rat.Sub : Option ℚ → Option ℚ → Except Panic ℚ
  | some a, some b => Except.ok (a - b)
  | _, _ => Except.error Panic.nilPointer

/-- The method `z.Mul(x, y)` of `big.Rat`; a nil operand panics. -/
def big.Rat.Mul : Option ℚ → Option ℚ → Except Panic ℚ
  | some a, some b => Except.ok (a * b)
  | _, _ => Except.error Panic.nilPointer

/-- The method `x.Sign()` of `big.Rat`: the sign of the numerator, -1, 0 or +1;
a nil receiver panics. -/
def big.Rat.Sign : Option ℚ → Except Panic ℤ
  | some a => Except.ok (Int.sign a.num)
  | none => Except.error Panic.nilPointer

/-- The method `func (ops RatioOps) Subtract(x, y Number) Number`. -/
def RatioOps.Subtract (x y : Number) : Except Panic Number :=
  match big.Rat.Sub x.Ratio y.Ratio with
  | Except.ok r => Except.ok (Number.ratio r)
  | Except.error e => Except.error e

/-- The method `func (ops RatioOps) Multiply(x, y Number) Number`. -/
def RatioOps.Multiply (x y : Number) : Except Panic Number :=
  match big.Rat.Mul x.Ratio y.Ratio with
  | Except.ok r => Except.ok (Number.ratio r)
  | Except.error e => Except.error e

/-- The method `func (ops RatioOps) IsZero(x Number) bool`. -/
def RatioOps.IsZero (x : Number) : Except Panic Bool :=
  match big.Rat.Sign x.Ratio with
  | Except.ok c => Except.ok (decide (c = 0))
  | Except.error e => Except.error e

/-! ## Operator tables: Lte and Gt of the exact tables -/

/-- The method `func (ops IntOps) Lte(x Number, y Number) bool`. -/
def IntOps.Lte (x y : Number) : Except Panic Bool :=
  Except.ok (decide (x.Int ≤ y.Int))

/-- The method `func (ops BigIntOps) Lte(x Number, y Number) bool`. -/
def BigIntOps.Lte (x y : Number) : Except Panic Bool :=
  match big.Int.Cmp x.BigInt y.BigInt with
  | Except.ok c => Except.ok (decide (c ≤ 0))
  | Except.error e => Except.error e

/-- The method `func (ops RatioOps) Lte(x Number, y Number) bool`. -/
def RatioOps.Lte (x y : Number) : Except Panic Bool :=
  match big.Rat.Cmp x.Ratio y.Ratio with
  | Except.ok c => Except.ok (decide (c ≤ 0))
  | Except.error e => Except.error e

/-- The method `func (ops IntOps) Gt(x Number, y Number) bool`. -/
def IntOps.Gt (x y : Number) : Except Panic Bool :=
  Except.ok (decide (x.Int > y.Int))

/-- The method `func (ops BigIntOps) Gt(x Number, y Number) bool`. -/
def BigIntOps.Gt (x y : Number) : Except Panic Bool :=
  match big.Int.Cmp x.BigInt y.BigInt with
  | Except.ok c => Except.ok (decide (c > 0))
  | Except.error e => Except.error e

/-- The method `func (ops RatioOps) Gt(x Number, y Number) bool`. -/
def RatioOps.Gt (x y : Number) : Except Panic Bool :=
  match big.Rat.Cmp x.Ratio y.Ratio with
  | Except.ok c => Except.ok (decide (c > 0))
  | Except.error e => Except.error e

/-- Exactly one of three conditions holds. -/
def exactlyOne (p q r : Bool) : Bool :=
  (p && !q && !r) || (!p && q && !r) || (!p && !q && r)

/-! ## The stored form of a `big.Rat` -/

/-- The two integers a `big.Rat` stores: the numerator `a` (with the sign) and
the denominator `b`, as `Num()` and `Denom()` return them. Nothing in the type
makes the pair a fraction in lowest terms. -/
structure big.RatRep where
  num : ℤ
  den : ℕ
  deriving DecidableEq

/-- The fraction a stored pair denotes. -/
def big.RatRep.toRat (x : big.RatRep) : ℚ := (x.num : ℚ) / (x.den : ℚ)

/-- A stored pair in lowest terms with a positive denominator. -/
def big.RatRep.reduced (x : big.RatRep) : Prop :=
  0 < x.den ∧ Nat.gcd x.num.natAbs x.den = 1

/-- The pair stored for a fraction held by a `Ratio`. -/
def big.RatRep.ofRat (q : ℚ) : big.RatRep := ⟨q.num, q.den⟩

/-- The method `norm` of `big.Rat`, which ends every operation of `math/big`
on fractions: numerator and denominator are divided by their greatest common
divisor. -/
def big.RatRep.norm (n : ℤ) (d : ℕ) : big.RatRep :=
  ⟨n / (Nat.gcd n.natAbs d : ℤ), d / Nat.gcd n.natAbs d⟩

/-- The computation of `z.Add(x, y)` on stored pairs: cross-multiply, add the
numerators, multiply the denominators, normalise. -/
def big.RatRep.Add (x y : big.RatRep) : big.RatRep :=
  big.RatRep.norm (x.num * y.den + y.num * x.den) (x.den * y.den)

/-- The computation of `z.Sub(x, y)` on stored pairs. -/
def big.RatRep.Sub (x y : big.RatRep) : big.RatRep :=
  big.RatRep.norm (x.num * y.den - y.num * x.den) (x.den * y.den)

/-- The computation of `z.Mul(x, y)` on stored pairs. -/
def big.RatRep.Mul (x y : big.RatRep) : big.RatRep :=
  big.RatRep.norm (x.num * y.num) (x.den * y.den)

/-- The computation of `z.Quo(x, y)` on stored pairs, for a divisor other than
zero: the magnitudes `|x.a| * y.b` over `|y.a| * x.b`, the sign the exclusive
or of the two signs, normalised. -/
def big.RatRep.Quo (x y : big.RatRep) : big.RatRep :=
  big.RatRep.norm (Int.sign y.num * (x.num * y.den)) (y.num.natAbs * x.den)

/-- The computation of `big.NewRat(a, b)` on stored pairs, for `b` other than
zero: `|a|` over `|b|` with the sign of `a/b`, normalised. -/
def big.RatRep.NewRat (a b : ℤ) : big.RatRep :=
  big.RatRep.norm (Int.sign b * a) b.natAbs

/-- The method `z.SetInt(x)` of `big.Rat` on stored pairs: `x` over 1. -/
def big.RatRep.SetInt (z : ℤ) : big.RatRep := ⟨z, 1⟩

/-! ## Denotations used to state the properties -/

/-- The mathematical value of a number of an exact kind (Integer, BigInteger or
Rational); `none` for the two floating kinds. -/
def Number.exactValue : Number → Option ℚ
  | Number.int i => some (i : ℚ)
  | Number.bigInt b => some (b : ℚ)
  | Number.ratio r => some r
  | _ => none

/-- The position of a double on the extended rational line (`-∞`, a rational,
`+∞`); NaN has no position and is sent to 0. -/
def Float64.ext : Float64 → WithBot (WithTop ℚ)
  | Float64.finite neg mant exp => ((finVal neg mant exp : ℚ) : WithTop ℚ)
  | Float64.inf true => ⊥
  | Float64.inf false => ((⊤ : WithTop ℚ) : WithBot (WithTop ℚ))
  | Float64.nan => 0

/-- The position of a `big.Float` on the extended rational line. -/
def big.Float.ext : big.Float → WithBot (WithTop ℚ)
  | big.Float.finite neg mant exp => ((finVal neg mant exp : ℚ) : WithTop ℚ)
  | big.Float.inf true => ⊥
  | big.Float.inf false => ((⊤ : WithTop ℚ) : WithBot (WithTop ℚ))

/-- The position of a number on the extended rational line: its mathematical
value. -/
def Number.key : Number → WithBot (WithTop ℚ)
  | Number.int i => (((i : ℚ) : WithTop ℚ) : WithBot (WithTop ℚ))
  | Number.double d => d.ext
  | Number.bigInt b => (((b : ℚ) : WithTop ℚ) : WithBot (WithTop ℚ))
  | Number.bigFloat b => b.ext
  | Number.ratio r => ((r : WithTop ℚ) : WithBot (WithTop ℚ))

/-- The exact kinds: Integer, BigInteger, Rational. -/
def Number.isExact : Number → Prop
  | Number.int _ => True
  | Number.bigInt _ => True
  | Number.ratio _ => True
  | _ => False

/-- The floating kinds, NaN left out: a Float other than NaN, or a BigFloat. -/
def Number.isFloating : Number → Prop
  | Number.double d => d ≠ Float64.nan
  | Number.bigFloat _ => True
  | _ => False

/-- An integer that a double holds exactly: every integer of magnitude at most
`2^53`, and beyond that each integer that is the value of a representable
double. -/
def doubleExact (i : ℤ) : Prop :=
  |i| ≤ 2 ^ 53 ∨ ∃ d : Float64, d.WF ∧ d.SetFloat64 = some (i : ℚ)

/-- The numbers that the conversions `Double()` and `BigFloat()` carry over
without rounding, wrapping or panic: an Integer that a double holds exactly, a
Float other than NaN, a BigInteger within the `int` range that a double holds
exactly, every BigFloat, and a Rational that is the value of a double. -/
def Number.floatSafe : Number → Prop
  | Number.int i => doubleExact i
  | Number.double d => d ≠ Float64.nan
  | Number.bigInt b => inInt64 b ∧ doubleExact b
  | Number.bigFloat _ => True
  | Number.ratio r => ∃ d : Float64, d.WF ∧ d.SetFloat64 = some r

/-- The conversion that the table `ops` applies to `x` before it compares
returns a value, not NaN, at the position of `x` on the extended rational line:
`Int()` for `IntOps`, `BigInt()` for `BigIntOps`, `Ratio()` for `RatioOps`,
`Double()` for `DoubleOps` and `BigFloat()` for `BigFloatOps`. -/
def Number.exactIn (x : Number) (ops : Ops) : Prop :=
  match ops with
  | Ops.IntOps => (((x.Int : ℚ) : WithTop ℚ) : WithBot (WithTop ℚ)) = x.key
  | Ops.BigIntOps =>
      ∃ b : ℤ, x.BigInt = some b ∧ (((b : ℚ) : WithTop ℚ) : WithBot (WithTop ℚ)) = x.key
  | Ops.RatioOps =>
      ∃ q : ℚ, x.Ratio = some q ∧ ((q : WithTop ℚ) : WithBot (WithTop ℚ)) = x.key
  | Ops.DoubleOps => x.Double ≠ Float64.nan ∧ x.Double.ext = x.key
  | Ops.BigFloatOps => ∃ f : big.Float, x.BigFloat = Except.ok f ∧ f.ext = x.key

/-- Both operands of `CompareNumbers(x, y)` are converted without loss into the
table the comparison is made in. -/
def comparedExactly (x y : Number) : Prop :=
  x.exactIn ((GetOps (Object.number x)).Combine (GetOps (Object.number y))) ∧
  y.exactIn ((GetOps (Object.number x)).Combine (GetOps (Object.number y)))

instance (d : Float64) : Decidable d.WF := by
  cases d <;> unfold Float64.WF <;> infer_instance

instance (n : Number) : Decidable n.WF := by
  cases n <;> unfold Number.WF <;> infer_instance

/-! ## Theorems -/

/-- C1: for every pair of operator tables, `a.Combine(b)` is the table of the
higher rank under Integer < BigInteger < Rational < Float < BigFloat: its rank
is the maximum of the two ranks, and it is the table the rank lookup gives. -/
theorem Combine_eq_max_rank (a b : Ops) :
    (a.Combine b).rank = max a.rank b.rank ∧ a.Combine b = combineByRank a b := by
  cases a <;> cases b <;> exact ⟨rfl, rfl⟩

/-- C2: `Combine` is commutative in its result: `a.Combine(b) = b.Combine(a)`
for every pair of operator tables. -/
theorem Combine_comm (a b : Ops) : a.Combine b = b.Combine a := by
  cases a <;> cases b <;> rfl

/-! ### Integers, fractions -/

theorem wrap64_of_inInt64 {z : ℤ} (h : inInt64 z) : wrap64 z = z := by
  unfold inInt64 at h
  unfold wrap64
  omega

theorem quot_inInt64 {y k : ℤ} (hx : inInt64 (y * k)) (hy0 : y ≠ 0)
    (hov : ¬ (y * k = -2 ^ 63 ∧ y = -1)) : inInt64 k := by
  unfold inInt64 at *
  rcases lt_or_gt_of_ne hy0 with h | h
  · have h1 : y ≤ -1 := by omega
    rcases le_or_lt 0 k with hk | hk
    · constructor
      · omega
      · by_contra hc
        push_neg at hc
        by_cases hy1 : y = -1
        · subst hy1
          apply hov
          constructor
          · nlinarith
          · rfl
        · have : y ≤ -2 := by omega
          nlinarith
    · constructor
      · nlinarith
      · omega
  · have h1 : 1 ≤ y := by omega
    rcases le_or_lt 0 k with hk | hk
    · constructor
      · omega
      · nlinarith
    · constructor
      · nlinarith
      · omega

theorem isInt_iff_den (q : ℚ) : q.isInt = true ↔ q.den = 1 := by
  rw [Rat.isInt, Nat.beq_eq_true_eq]

theorem isInt_div_iff (x y : ℤ) (hy : y ≠ 0) : ((x : ℚ) / y).isInt = true ↔ y ∣ x := by
  rw [isInt_iff_den]
  exact Rat.den_div_intCast_eq_one_iff x y hy

theorem num_div_of_dvd (x y : ℤ) (h : y ∣ x) : ((x : ℚ) / y).num = x / y := by
  rw [← Rat.intCast_div x y h]
  exact Rat.num_intCast _

theorem IntOps_Divide_eq (x y : ℤ) (hy : y ≠ 0) :
    IntOps.Divide (Number.int x) (Number.int y) =
      if y ∣ x then Except.ok (Number.int (wrap64 (x / y)))
      else Except.ok (Number.ratio ((x : ℚ) / y)) := by
  unfold IntOps.Divide big.NewRat
  simp only [Number.Int, if_neg hy, Rat.divInt_eq_div]
  by_cases h : y ∣ x
  · rw [if_pos ((isInt_div_iff x y hy).2 h), if_pos h, num_div_of_dvd x y h]
  · have h2 : ¬ ((x : ℚ) / y).isInt = true := fun hc => h ((isInt_div_iff x y hy).1 hc)
    rw [if_neg h2, if_neg h]

theorem BigIntOps_Divide_eq (x y : ℤ) (hy : y ≠ 0) :
    BigIntOps.Divide (Number.bigInt x) (Number.bigInt y) =
      if y ∣ x then Except.ok (Number.bigInt (x / y))
      else Except.ok (Number.ratio ((x : ℚ) / y)) := by
  have hy2 : (y : ℚ) ≠ 0 := Int.cast_ne_zero.2 hy
  unfold BigIntOps.Divide big.Rat.Quo
  simp only [Number.Ratio, if_neg hy2]
  by_cases h : y ∣ x
  · rw [if_pos ((isInt_div_iff x y hy).2 h), if_pos h, num_div_of_dvd x y h]
  · have h2 : ¬ ((x : ℚ) / y).isInt = true := fun hc => h ((isInt_div_iff x y hy).1 hc)
    rw [if_neg h2, if_neg h]

/-- C3 (counterexample): the operands `-2^63` and `-1` are Integers, the divisor
is not zero, and `IntOps.Divide` returns the Integer `-2^63`, which does not
denote the exact quotient `2^63`. -/
theorem IntOps_Divide_minInt_overflow :
    inInt64 (-2 ^ 63) ∧ inInt64 (-1) ∧
    IntOps.Divide (Number.int (-2 ^ 63)) (Number.int (-1))
      = Except.ok (Number.int (-2 ^ 63)) ∧
    (Number.int (-2 ^ 63)).exactValue ≠ some (((-2 ^ 63 : ℤ) : ℚ) / ((-1 : ℤ) : ℚ)) := by
  refine ⟨by decide, by decide, ?_, ?_⟩
  · rw [IntOps_Divide_eq _ _ (by decide), if_pos (by decide)]
    decide
  · simp only [Number.exactValue]
    norm_num

/-- C3 (amended): for Integers `x` and `y` with `y ≠ 0`, other than the pair
`x = -2^63`, `y = -1`, `IntOps.Divide(x, y)` returns a value that denotes the
exact quotient `x/y`: the Integer `x/y` when `y` divides `x`, and otherwise the
Rational `x/y`. -/
theorem IntOps_Divide_exact (x y : ℤ) (hx : inInt64 x) (_hy : inInt64 y) (hy0 : y ≠ 0)
    (hov : ¬ (x = -2 ^ 63 ∧ y = -1)) :
    ∃ v, IntOps.Divide (Number.int x) (Number.int y) = Except.ok v ∧
      v.exactValue = some ((x : ℚ) / y) ∧
      (y ∣ x → v = Number.int (x / y)) ∧
      (¬ y ∣ x → v = Number.ratio ((x : ℚ) / y)) := by
  rw [IntOps_Divide_eq x y hy0]
  by_cases h : y ∣ x
  · have hq : inInt64 (x / y) := by
      obtain ⟨k, rfl⟩ := h
      rw [Int.mul_ediv_cancel_left k hy0]
      exact quot_inInt64 hx hy0 hov
    rw [if_pos h, wrap64_of_inInt64 hq]
    refine ⟨_, rfl, ?_, fun _ => rfl, fun hn => absurd h hn⟩
    simp only [Number.exactValue]
    rw [Rat.intCast_div x y h]
  · rw [if_neg h]
    exact ⟨_, rfl, rfl, fun hd => absurd hd h, fun _ => rfl⟩

/-- C3 (witness): `6 / 3` is the Integer 2 and `1 / 3` is the Rational 1/3. -/
theorem IntOps_Divide_exact_witness :
    (inInt64 6 ∧ inInt64 3 ∧ (3 : ℤ) ≠ 0 ∧ ¬ ((6 : ℤ) = -2 ^ 63 ∧ (3 : ℤ) = -1)) ∧
    (∃ v, IntOps.Divide (Number.int 6) (Number.int 3) = Except.ok v ∧
      v.exactValue = some (((6 : ℤ) : ℚ) / ((3 : ℤ) : ℚ)) ∧
      ((3 : ℤ) ∣ 6 → v = Number.int (6 / 3)) ∧
      (¬ (3 : ℤ) ∣ 6 → v = Number.ratio (((6 : ℤ) : ℚ) / ((3 : ℤ) : ℚ)))) :=
  ⟨⟨by decide, by decide, by decide, by decide⟩,
    IntOps_Divide_exact 6 3 (by decide) (by decide) (by decide) (by decide)⟩

/-- C4: for BigIntegers `x` and `y` with `y ≠ 0`, `BigIntOps.Divide(x, y)`
returns a value equal to the exact quotient `x/y`; it is a BigInteger if and
only if `y` divides `x` (then it is `x/y`), and otherwise the Rational `x/y`. -/
theorem BigIntOps_Divide_exact (x y : ℤ) (hy0 : y ≠ 0) :
    ∃ v, BigIntOps.Divide (Number.bigInt x) (Number.bigInt y) = Except.ok v ∧
      v.exactValue = some ((x : ℚ) / y) ∧
      ((∃ b, v = Number.bigInt b) ↔ y ∣ x) ∧
      (y ∣ x → v = Number.bigInt (x / y)) ∧
      (¬ y ∣ x → v = Number.ratio ((x : ℚ) / y)) := by
  rw [BigIntOps_Divide_eq x y hy0]
  by_cases h : y ∣ x
  · rw [if_pos h]
    refine ⟨_, rfl, ?_, ⟨fun _ => h, fun _ => ⟨_, rfl⟩⟩, fun _ => rfl, fun hn => absurd h hn⟩
    simp only [Number.exactValue]
    rw [Rat.intCast_div x y h]
  · rw [if_neg h]
    refine ⟨_, rfl, rfl, ⟨?_, fun hd => absurd hd h⟩, fun hd => absurd hd h, fun _ => rfl⟩
    rintro ⟨b, hb⟩
    cases hb

/-- C4 (witness): `10 / 4` over BigIntegers. -/
theorem BigIntOps_Divide_exact_witness :
    (4 : ℤ) ≠ 0 ∧
    (∃ v, BigIntOps.Divide (Number.bigInt 10) (Number.bigInt 4) = Except.ok v ∧
      v.exactValue = some (((10 : ℤ) : ℚ) / ((4 : ℤ) : ℚ)) ∧
      ((∃ b, v = Number.bigInt b) ↔ (4 : ℤ) ∣ 10) ∧
      ((4 : ℤ) ∣ 10 → v = Number.bigInt (10 / 4)) ∧
      (¬ (4 : ℤ) ∣ 10 → v = Number.ratio (((10 : ℤ) : ℚ) / ((4 : ℤ) : ℚ)))) :=
  ⟨by decide, BigIntOps_Divide_exact 10 4 (by decide)⟩

/-- C5: for same-kind operands of kind Integer, BigInteger or Rational the
governing table is the table of that kind, and its `Divide(x, y)` panics with
"division by zero" exactly when the divisor is zero, and returns a value
otherwise. -/
theorem Divide_fails_iff_zero (x y : ℤ) (r s : ℚ) :
    ((GetOps (Object.number (Number.int x))).Combine (GetOps (Object.number (Number.int y)))
        = Ops.IntOps ∧
      ((y = 0 ∧ IntOps.Divide (Number.int x) (Number.int y)
          = Except.error Panic.divisionByZero) ∨
       (y ≠ 0 ∧ ∃ v, IntOps.Divide (Number.int x) (Number.int y) = Except.ok v))) ∧
    ((GetOps (Object.number (Number.bigInt x))).Combine
        (GetOps (Object.number (Number.bigInt y))) = Ops.BigIntOps ∧
      ((y = 0 ∧ BigIntOps.Divide (Number.bigInt x) (Number.bigInt y)
          = Except.error Panic.divisionByZero) ∨
       (y ≠ 0 ∧ ∃ v, BigIntOps.Divide (Number.bigInt x) (Number.bigInt y) = Except.ok v))) ∧
    ((GetOps (Object.number (Number.ratio r))).Combine
        (GetOps (Object.number (Number.ratio s))) = Ops.RatioOps ∧
      ((s = 0 ∧ RatioOps.Divide (Number.ratio r) (Number.ratio s)
          = Except.error Panic.divisionByZero) ∨
       (s ≠ 0 ∧ ∃ v, RatioOps.Divide (Number.ratio r) (Number.ratio s) = Except.ok v))) := by
  refine ⟨⟨rfl, ?_⟩, ⟨rfl, ?_⟩, ⟨rfl, ?_⟩⟩
  · by_cases hy : y = 0
    · left
      subst hy
      exact ⟨rfl, rfl⟩
    · right
      refine ⟨hy, ?_⟩
      rw [IntOps_Divide_eq x y hy]
      by_cases h : y ∣ x
      · rw [if_pos h]
        exact ⟨_, rfl⟩
      · rw [if_neg h]
        exact ⟨_, rfl⟩
  · by_cases hy : y = 0
    · left
      subst hy
      refine ⟨rfl, ?_⟩
      simp [BigIntOps.Divide, big.Rat.Quo, Number.Ratio]
    · right
      refine ⟨hy, ?_⟩
      rw [BigIntOps_Divide_eq x y hy]
      by_cases h : y ∣ x
      · rw [if_pos h]
        exact ⟨_, rfl⟩
      · rw [if_neg h]
        exact ⟨_, rfl⟩
  · by_cases hs : s = 0
    · left
      subst hs
      refine ⟨rfl, ?_⟩
      simp [RatioOps.Divide, big.Rat.Quo, Number.Ratio]
    · right
      refine ⟨hs, ?_⟩
      simp [RatioOps.Divide, big.Rat.Quo, Number.Ratio, hs]

/-- C8: for operands of kind Integer, BigInteger or Rational that are not both
Integers, the governing table `GetOps(x).Combine(GetOps(y))` is `BigIntOps` or
`RatioOps`, and its `Add(x, y)` returns a value of that kind (a BigInteger,
resp. a Rational) equal to the exact sum of the two values. -/
theorem Add_exact_promotion (x y : Number) (vx vy : ℚ)
    (hx : x.exactValue = some vx) (hy : y.exactValue = some vy)
    (hnot : ¬ (GetOps (Object.number x) = Ops.IntOps ∧ GetOps (Object.number y) = Ops.IntOps)) :
    ((GetOps (Object.number x)).Combine (GetOps (Object.number y)) = Ops.BigIntOps ∧
      ∃ b : ℤ, BigIntOps.Add x y = Except.ok (Number.bigInt b) ∧ (b : ℚ) = vx + vy) ∨
    ((GetOps (Object.number x)).Combine (GetOps (Object.number y)) = Ops.RatioOps ∧
      RatioOps.Add x y = Except.ok (Number.ratio (vx + vy))) := by
  cases x <;> cases y <;> simp [Number.exactValue] at hx hy <;> subst hx <;> subst hy <;>
    first
    | (right; exact ⟨rfl, rfl⟩)
    | (left; exact ⟨rfl, _, rfl, by push_cast; rfl⟩)
    | exact absurd ⟨rfl, rfl⟩ hnot

/-- C8 (witness): `add(Integer 2, Rational 1/2)` is the Rational `2 + 1/2`. -/
theorem Add_exact_promotion_witness :
    ((GetOps (Object.number (Number.int 2))).Combine
        (GetOps (Object.number (Number.ratio (1 / 2)))) = Ops.BigIntOps ∧
      ∃ b : ℤ, BigIntOps.Add (Number.int 2) (Number.ratio (1 / 2))
        = Except.ok (Number.bigInt b) ∧ (b : ℚ) = ((2 : ℤ) : ℚ) + 1 / 2) ∨
    ((GetOps (Object.number (Number.int 2))).Combine
        (GetOps (Object.number (Number.ratio (1 / 2)))) = Ops.RatioOps ∧
      RatioOps.Add (Number.int 2) (Number.ratio (1 / 2))
        = Except.ok (Number.ratio (((2 : ℤ) : ℚ) + 1 / 2))) :=
  Add_exact_promotion (Number.int 2) (Number.ratio (1 / 2)) ((2 : ℤ) : ℚ) (1 / 2) rfl rfl
    (fun h => Ops.noConfusion h.2)

/-- C9: the round trip Integer -> BigInteger -> Integer is the identity: for
every Integer `i`, `i.BigInt()` is a big integer `b`, and `Int()` of the
BigInteger holding `b` is `i`. -/
theorem Int_BigInt_Int_roundtrip (i : ℤ) (h : inInt64 i) :
    ∃ b, (Number.int i).BigInt = some b ∧ (Number.bigInt b).Int = i :=
  ⟨i, rfl, wrap64_of_inInt64 h⟩

/-- C9 (witness): Integer 5. -/
theorem Int_BigInt_Int_roundtrip_witness :
    inInt64 5 ∧ ∃ b, (Number.int 5).BigInt = some b ∧ (Number.bigInt b).Int = 5 :=
  ⟨by decide, Int_BigInt_Int_roundtrip 5 (by decide)⟩

/-! ### Rounding to a double -/

theorem zpow_two_pos (e : ℤ) : (0 : ℚ) < 2 ^ e := by positivity

theorem round_exp_eq (m : ℕ) (e : ℤ) (hm0 : m ≠ 0) (hm : m < 2 ^ 53) (he1 : -1074 ≤ e)
    (hsub : m < 2 ^ 52 → e = -1074) :
    max (Int.log 2 ((m : ℚ) * 2 ^ e) - 52) (-1074) = e := by
  have hmpos : (0 : ℚ) < m := Nat.cast_pos.2 (Nat.pos_of_ne_zero hm0)
  have hq : (0 : ℚ) < (m : ℚ) * 2 ^ e := mul_pos hmpos (zpow_two_pos e)
  have h2 : (2 : ℚ) ≠ 0 := by norm_num
  by_cases hn : m < 2 ^ 52
  · have hup : Int.log 2 ((m : ℚ) * 2 ^ e) < e + 52 := by
      apply (Int.lt_zpow_iff_log_lt (by norm_num) hq).1
      rw [Nat.cast_ofNat, zpow_add₀ h2, mul_comm (2 ^ e)]
      apply mul_lt_mul_of_pos_right _ (zpow_two_pos e)
      have h3 : (m : ℚ) < ((2 ^ 52 : ℕ) : ℚ) := Nat.cast_lt.2 hn
      norm_num at h3 ⊢
      exact h3
    rw [max_eq_right (by omega)]
    exact (hsub hn).symm
  · have hup : Int.log 2 ((m : ℚ) * 2 ^ e) < e + 53 := by
      apply (Int.lt_zpow_iff_log_lt (by norm_num) hq).1
      rw [Nat.cast_ofNat, zpow_add₀ h2, mul_comm (2 ^ e)]
      apply mul_lt_mul_of_pos_right _ (zpow_two_pos e)
      have h3 : (m : ℚ) < ((2 ^ 53 : ℕ) : ℚ) := Nat.cast_lt.2 hm
      norm_num at h3 ⊢
      exact h3
    have hlo : e + 52 ≤ Int.log 2 ((m : ℚ) * 2 ^ e) := by
      apply (Int.zpow_le_iff_le_log (by norm_num) hq).1
      rw [Nat.cast_ofNat, zpow_add₀ h2, mul_comm (2 ^ e)]
      apply mul_le_mul_of_nonneg_right _ (le_of_lt (zpow_two_pos e))
      have h3 : ((2 ^ 52 : ℕ) : ℚ) ≤ (m : ℚ) := Nat.cast_le.2 (not_lt.1 hn)
      norm_num at h3 ⊢
      exact h3
    rw [max_eq_left (by omega)]
    omega

theorem Float64.round_exact (neg : Bool) (m : ℕ) (e : ℤ)
    (h : Float64.WF (Float64.finite neg m e)) :
    Float64.round neg ((m : ℚ) * 2 ^ e) = Float64.finite neg m e := by
  obtain ⟨hm, he1, he2, hsub⟩ := h
  by_cases hm0 : m = 0
  · subst hm0
    have he : e = -1074 := hsub (by norm_num)
    subst he
    simp [Float64.round]
  · have hmpos : (0 : ℚ) < m := Nat.cast_pos.2 (Nat.pos_of_ne_zero hm0)
    have hq : (0 : ℚ) < (m : ℚ) * 2 ^ e := mul_pos hmpos (zpow_two_pos e)
    have ht : (m : ℚ) * 2 ^ e / 2 ^ e = m := by
      field_simp
    unfold Float64.round
    rw [if_neg (not_le.2 hq)]
    simp only [round_exp_eq m e hm0 hm he1 hsub, ht, Nat.floor_natCast, sub_self]
    rw [if_pos (by norm_num : (0 : ℚ) < 1 / 2), if_neg (by omega : ¬ m = 2 ^ 53)]
    simp only []
    rw [if_neg (not_lt.2 he2)]

/-! ### The comparator on the two families of kinds -/

theorem key_coe_lt (a b : ℚ) :
    (((a : WithTop ℚ) : WithBot (WithTop ℚ)) < ((b : WithTop ℚ) : WithBot (WithTop ℚ))) ↔ a < b := by
  rw [WithBot.coe_lt_coe, WithTop.coe_lt_coe]

theorem cmp3_neg_iff {α : Type} [LinearOrder α] (a b : α) :
    ((if a < b then -1 else if b < a then 1 else 0 : ℤ) < 0) ↔ a < b := by
  by_cases h1 : a < b
  · simp [h1]
  · by_cases h2 : b < a <;> simp [h1, h2]

theorem compare_ok (p q : Prop) [Decidable p] [Decidable q] :
    (match (Except.ok (decide p) : Except Panic Bool) with
      | Except.error e => Except.error e
      | Except.ok true => Except.ok (-1)
      | Except.ok false =>
        match (Except.ok (decide q) : Except Panic Bool) with
        | Except.error e => Except.error e
        | Except.ok true => Except.ok 1
        | Except.ok false => Except.ok 0)
      = (Except.ok (if p then -1 else if q then 1 else 0) : Except Panic ℤ) := by
  by_cases hp : p <;> by_cases hq : q <;> simp [hp, hq]

theorem CompareNumbers_exact (x y : Number) (hx : x.isExact) (hy : y.isExact) :
    CompareNumbers x y
      = Except.ok (if x.key < y.key then -1 else if y.key < x.key then 1 else 0) := by
  cases x <;> cases y <;> simp only [Number.isExact] at hx hy <;>
    simp only [CompareNumbers, GetOps, Ops.Combine, IntOps.Combine, BigIntOps.Combine,
      RatioOps.Combine, Ops.Lt, IntOps.Lt, BigIntOps.Lt, RatioOps.Lt, Number.Int, Number.BigInt,
      Number.Ratio, big.Int.Cmp, big.Rat.Cmp, Number.key, key_coe_lt, Int.cast_lt]
  all_goals simp only [cmp3_neg_iff, compare_ok]

theorem key_coe_lt_top (q : ℚ) :
    ((q : WithTop ℚ) : WithBot (WithTop ℚ)) < ⊤ := by
  rw [← WithBot.coe_top, WithBot.coe_lt_coe]
  exact WithTop.coe_lt_top q

theorem Float64.lt_eq_ext (a b : Float64) (ha : a ≠ Float64.nan) (hb : b ≠ Float64.nan) :
    Float64.lt a b = decide (a.ext < b.ext) := by
  cases a with
  | nan => exact absurd rfl ha
  | inf n1 =>
    cases b with
    | nan => exact absurd rfl hb
    | inf n2 => cases n1 <;> cases n2 <;> simp [Float64.lt, Float64.ext]
    | finite n2 m2 e2 => cases n1 <;> simp [Float64.lt, Float64.ext]
  | finite n1 m1 e1 =>
    cases b with
    | nan => exact absurd rfl hb
    | inf n2 => cases n2 <;> simp [Float64.lt, Float64.ext, key_coe_lt_top]
    | finite n2 m2 e2 => simp [Float64.lt, Float64.ext]

theorem big.Float.Cmp_neg_iff (a b : big.Float) : big.Float.Cmp a b < 0 ↔ a.ext < b.ext := by
  cases a with
  | inf n1 =>
    cases b with
    | inf n2 => cases n1 <;> cases n2 <;> simp [big.Float.Cmp, big.Float.ext]
    | finite n2 m2 e2 => cases n1 <;> simp [big.Float.Cmp, big.Float.ext]
  | finite n1 m1 e1 =>
    cases b with
    | inf n2 => cases n2 <;> simp [big.Float.Cmp, big.Float.ext, key_coe_lt_top]
    | finite n2 m2 e2 =>
      simp only [big.Float.Cmp, big.Float.ext, key_coe_lt]
      exact cmp3_neg_iff _ _

theorem big.NewFloat_ext (d : Float64) (hd : d ≠ Float64.nan) :
    ∃ b, big.NewFloat d = Except.ok b ∧ b.ext = d.ext := by
  cases d with
  | nan => exact absurd rfl hd
  | inf n => cases n <;> exact ⟨_, rfl, rfl⟩
  | finite n m e => exact ⟨_, rfl, rfl⟩

theorem CompareNumbers_floating (x y : Number) (hx : x.isFloating) (hy : y.isFloating) :
    CompareNumbers x y
      = Except.ok (if x.key < y.key then -1 else if y.key < x.key then 1 else 0) := by
  cases x with
  | int _ => exact absurd hx id
  | bigInt _ => exact absurd hx id
  | ratio _ => exact absurd hx id
  | double a =>
    cases y with
    | int _ => exact absurd hy id
    | bigInt _ => exact absurd hy id
    | ratio _ => exact absurd hy id
    | double b =>
      simp only [CompareNumbers, GetOps, Ops.Combine, DoubleOps.Combine, Ops.Lt, DoubleOps.Lt,
        Number.Double, Number.key, Float64.lt_eq_ext a b hx hy, Float64.lt_eq_ext b a hy hx,
        compare_ok]
    | bigFloat b =>
      obtain ⟨a2, ha, hae⟩ := big.NewFloat_ext a hx
      simp only [CompareNumbers, GetOps, Ops.Combine, DoubleOps.Combine, Ops.Lt, BigFloatOps.Lt,
        Number.BigFloat, Number.key, ha, big.Float.Cmp_neg_iff, hae, compare_ok]
  | bigFloat a =>
    cases y with
    | int _ => exact absurd hy id
    | bigInt _ => exact absurd hy id
    | ratio _ => exact absurd hy id
    | double b =>
      obtain ⟨b2, hb, hbe⟩ := big.NewFloat_ext b hy
      simp only [CompareNumbers, GetOps, Ops.Combine, BigFloatOps.Combine, Ops.Lt, BigFloatOps.Lt,
        Number.BigFloat, Number.key, hb, big.Float.Cmp_neg_iff, hbe, compare_ok]
    | bigFloat b =>
      simp only [CompareNumbers, GetOps, Ops.Combine, BigFloatOps.Combine, Ops.Lt, BigFloatOps.Lt,
        Number.BigFloat, Number.key, big.Float.Cmp_neg_iff, compare_ok]

theorem finVal_abs (neg : Bool) (m : ℕ) (e : ℤ) : |finVal neg m e| = (m : ℚ) * 2 ^ e := by
  have h : (0 : ℚ) ≤ (m : ℚ) * 2 ^ e := mul_nonneg (Nat.cast_nonneg m) (le_of_lt (zpow_two_pos e))
  cases neg
  · have h1 : finVal false m e = (m : ℚ) * 2 ^ e := by simp [finVal]
    rw [h1]
    exact abs_of_nonneg h
  · have h1 : finVal true m e = -((m : ℚ) * 2 ^ e) := by simp [finVal]
    rw [h1, abs_neg]
    exact abs_of_nonneg h

theorem finVal_neg_iff (neg : Bool) (m : ℕ) (e : ℤ) (hm : m ≠ 0) :
    finVal neg m e < 0 ↔ neg = true := by
  have h : (0 : ℚ) < (m : ℚ) * 2 ^ e :=
    mul_pos (Nat.cast_pos.2 (Nat.pos_of_ne_zero hm)) (zpow_two_pos e)
  cases neg
  · have h1 : finVal false m e = (m : ℚ) * 2 ^ e := by simp [finVal]
    rw [h1]
    simp only [Bool.false_eq_true, iff_false, not_lt]
    exact le_of_lt h
  · have h1 : finVal true m e = -((m : ℚ) * 2 ^ e) := by simp [finVal]
    rw [h1]
    simp only [iff_true]
    linarith

theorem finVal_zero (neg : Bool) (e : ℤ) : finVal neg 0 e = 0 := by
  simp [finVal]

theorem Rat_Float64_finVal (neg : Bool) (m : ℕ) (e : ℤ)
    (h : Float64.WF (Float64.finite neg m e)) :
    Rat_Float64 (finVal neg m e)
      = Float64.finite (if m = 0 then false else neg) m e := by
  unfold Rat_Float64
  rw [finVal_abs]
  by_cases hm : m = 0
  · subst hm
    rw [finVal_zero, if_pos rfl]
    simpa using Float64.round_exact false 0 e h
  · rw [if_neg hm]
    have hs : decide (finVal neg m e < 0) = neg := by
      cases hn : neg
      · have := (finVal_neg_iff false m e hm).not.2 (by simp)
        simpa using this
      · have := (finVal_neg_iff true m e hm).2 rfl
        simpa using this
    rw [hs]
    exact Float64.round_exact neg m e h

theorem Float64.ofInt_eq (n : ℤ) : Float64.ofInt n = Rat_Float64 (n : ℚ) := by
  unfold Float64.ofInt Rat_Float64
  simp

theorem Rat_Float64_ext (neg : Bool) (m : ℕ) (e : ℤ)
    (h : Float64.WF (Float64.finite neg m e)) :
    (Rat_Float64 (finVal neg m e)).ext = (Float64.finite neg m e).ext := by
  rw [Rat_Float64_finVal neg m e h]
  by_cases hm : m = 0
  · subst hm
    simp [Float64.ext, finVal_zero]
  · rw [if_neg hm]

theorem Float64.lt_false_of_ext_eq (a b : Float64) (ha : a ≠ Float64.nan)
    (hb : b ≠ Float64.nan) (h : a.ext = b.ext) :
    Float64.lt a b = false ∧ Float64.lt b a = false := by
  rw [Float64.lt_eq_ext a b ha hb, Float64.lt_eq_ext b a hb ha, h]
  simp

theorem SetFloat64_some (d : Float64) (q : ℚ) (h : d.SetFloat64 = some q) :
    ∃ neg m e, d = Float64.finite neg m e ∧ finVal neg m e = q := by
  cases d with
  | nan => simp [Float64.SetFloat64] at h
  | inf k => simp [Float64.SetFloat64] at h
  | finite neg m e =>
    simp only [Float64.SetFloat64, Option.some.injEq] at h
    exact ⟨neg, m, e, rfl, h⟩

theorem compare_ratio_double (r : ℚ) (d : Float64) (hd : d.WF) (hv : d.SetFloat64 = some r) :
    CompareNumbers (Number.ratio r) (Number.double d) = Except.ok 0 ∧
    CompareNumbers (Number.double d) (Number.ratio r) = Except.ok 0 := by
  obtain ⟨neg, m, e, rfl, hq⟩ := SetFloat64_some d r hv
  have hne : Rat_Float64 r ≠ Float64.nan := by
    rw [← hq, Rat_Float64_finVal neg m e hd]
    exact fun hc => Float64.noConfusion hc
  have hext : (Rat_Float64 r).ext = (Float64.finite neg m e).ext := by
    rw [← hq]
    exact Rat_Float64_ext neg m e hd
  obtain ⟨h1, h2⟩ := Float64.lt_false_of_ext_eq _ _ hne (fun hc => Float64.noConfusion hc) hext
  constructor
  · simp only [CompareNumbers, GetOps, Ops.Combine, RatioOps.Combine, Ops.Lt, DoubleOps.Lt,
      Number.Double, h1, h2]
  · simp only [CompareNumbers, GetOps, Ops.Combine, DoubleOps.Combine, Ops.Lt, DoubleOps.Lt,
      Number.Double, h1, h2]

theorem compare_int_double (n : ℤ) (d : Float64) (hd : d.WF)
    (hv : d.SetFloat64 = some (n : ℚ)) :
    CompareNumbers (Number.int n) (Number.double d) = Except.ok 0 ∧
    CompareNumbers (Number.double d) (Number.int n) = Except.ok 0 := by
  obtain ⟨h1, h2⟩ := compare_ratio_double (n : ℚ) d hd hv
  constructor
  · simp only [CompareNumbers, GetOps, Ops.Combine, IntOps.Combine, Ops.Lt, DoubleOps.Lt,
      Number.Double, Float64.ofInt_eq]
    simpa only [CompareNumbers, GetOps, Ops.Combine, RatioOps.Combine, Ops.Lt, DoubleOps.Lt,
      Number.Double] using h1
  · simp only [CompareNumbers, GetOps, Ops.Combine, DoubleOps.Combine, Ops.Lt, DoubleOps.Lt,
      Number.Double, Float64.ofInt_eq]
    simpa only [CompareNumbers, GetOps, Ops.Combine, DoubleOps.Combine, Ops.Lt, DoubleOps.Lt,
      Number.Double] using h2

theorem cmp3_le_iff {α : Type} [LinearOrder α] (a b : α) :
    ((if a < b then -1 else if b < a then 1 else 0 : ℤ) ≤ 0) ↔ a ≤ b := by
  by_cases h1 : a < b
  · simp [h1, le_of_lt h1]
  · by_cases h2 : b < a
    · simp [h1, h2]
    · simp [h1, h2, not_lt.1 h2]

theorem cmp3_eq_iff {α : Type} [LinearOrder α] (a b : α) :
    ((if a < b then -1 else if b < a then 1 else 0 : ℤ) = 0) ↔ a = b := by
  by_cases h1 : a < b
  · simp [h1, ne_of_lt h1]
  · by_cases h2 : b < a
    · simp [h1, h2, ne_of_gt h2]
    · simp [h1, h2, le_antisymm (not_lt.1 h2) (not_lt.1 h1)]

theorem CompareNumbers_family (x y : Number)
    (h : (x.isExact ∧ y.isExact) ∨ (x.isFloating ∧ y.isFloating)) :
    CompareNumbers x y
      = Except.ok (if x.key < y.key then -1 else if y.key < x.key then 1 else 0) := by
  rcases h with ⟨hx, hy⟩ | ⟨hx, hy⟩
  · exact CompareNumbers_exact x y hx hy
  · exact CompareNumbers_floating x y hx hy

theorem log2_tie : Int.log 2 ((2 : ℚ) ^ 53 + 1) = 53 := by
  have hq : (0 : ℚ) < (2 : ℚ) ^ 53 + 1 := by positivity
  apply le_antisymm
  · have h := (Int.lt_zpow_iff_log_lt (b := 2) (by norm_num) hq (x := 54)).1 (by norm_num)
    omega
  · exact (Int.zpow_le_iff_le_log (b := 2) (by norm_num) hq).1 (by norm_num)

theorem ofInt_tie : Float64.ofInt (2 ^ 53 + 1) = Float64.finite false (2 ^ 52) 1 := by
  have habs : |((2 ^ 53 + 1 : ℤ) : ℚ)| = (2 : ℚ) ^ 53 + 1 := by
    rw [abs_of_nonneg (by positivity)]
    norm_num
  have hfl : ⌊(9007199254740993 : ℚ) / 2⌋₊ = 4503599627370496 := by
    rw [Nat.floor_eq_iff (by positivity)]
    constructor <;> norm_num
  unfold Float64.ofInt Float64.round
  rw [habs, if_neg (by norm_num)]
  simp only [log2_tie]
  norm_num [hfl]

theorem Float64.lt_irrefl (d : Float64) : Float64.lt d d = false := by
  cases d with
  | nan => rfl
  | inf n => cases n <;> rfl
  | finite n m e => simp [Float64.lt]

theorem CompareNumbers_double_eq (x y : Number) (d : Float64)
    (hops : (GetOps (Object.number x)).Combine (GetOps (Object.number y)) = Ops.DoubleOps)
    (hx : x.Double = d) (hy : y.Double = d) : CompareNumbers x y = Except.ok 0 := by
  unfold CompareNumbers
  rw [hops]
  simp only [Ops.Lt, DoubleOps.Lt, hx, hy, Float64.lt_irrefl]

theorem ofInt_zero : Float64.ofInt 0 = Float64.finite false 0 (-1074) := by
  simp [Float64.ofInt, Float64.round]

theorem ofInt_wrap_pow64 : Float64.ofInt (wrap64 (2 ^ 64)) = Float64.finite false 0 (-1074) := by
  have hw : wrap64 (2 ^ 64) = 0 := by decide
  rw [hw]
  exact ofInt_zero

/-! ### The comparator: claims -/

/-- C6 (counterexample): transitivity fails on well-formed operands. With the
Floats 1.0, NaN and 0.0 the comparator gives 0, 0 and then 1; without any NaN,
the Integer `2^53 + 1`, the Float `2^53` and the Integer `2^53` give 0, 0 and
then 1, because `float64(2^53 + 1)` rounds to `2^53`; and the BigInteger `2^64`,
the Float 0.0 and the Integer 0 give 0, 0 and then 1. -/
theorem CompareNumbers_not_transitive :
    ((Number.double (Float64.finite false (2 ^ 52) (-52))).WF ∧
      (Number.double Float64.nan).WF ∧ (Number.double (Float64.finite false 0 (-1074))).WF ∧
      CompareNumbers (Number.double (Float64.finite false (2 ^ 52) (-52)))
        (Number.double Float64.nan) = Except.ok 0 ∧
      CompareNumbers (Number.double Float64.nan)
        (Number.double (Float64.finite false 0 (-1074))) = Except.ok 0 ∧
      CompareNumbers (Number.double (Float64.finite false (2 ^ 52) (-52)))
        (Number.double (Float64.finite false 0 (-1074))) = Except.ok 1) ∧
    ((Number.int (2 ^ 53 + 1)).WF ∧ (Number.double (Float64.finite false (2 ^ 52) 1)).WF ∧
      (Number.int (2 ^ 53)).WF ∧
      CompareNumbers (Number.int (2 ^ 53 + 1))
        (Number.double (Float64.finite false (2 ^ 52) 1)) = Except.ok 0 ∧
      CompareNumbers (Number.double (Float64.finite false (2 ^ 52) 1))
        (Number.int (2 ^ 53)) = Except.ok 0 ∧
      CompareNumbers (Number.int (2 ^ 53 + 1)) (Number.int (2 ^ 53)) = Except.ok 1) ∧
    ((Number.bigInt (2 ^ 64)).WF ∧ (Number.int 0).WF ∧
      CompareNumbers (Number.bigInt (2 ^ 64))
        (Number.double (Float64.finite false 0 (-1074))) = Except.ok 0 ∧
      CompareNumbers (Number.double (Float64.finite false 0 (-1074)))
        (Number.int 0) = Except.ok 0 ∧
      CompareNumbers (Number.bigInt (2 ^ 64)) (Number.int 0) = Except.ok 1) := by
  have hzero : finVal false 0 (-1074) = 0 := finVal_zero _ _
  have hv53 : (Float64.finite false (2 ^ 52) 1).SetFloat64 = some (((2 ^ 53 : ℤ)) : ℚ) := by
    simp only [Float64.SetFloat64, finVal]
    norm_num
  have hv0 : (Float64.finite false 0 (-1074)).SetFloat64 = some (((0 : ℤ)) : ℚ) := by
    simp only [Float64.SetFloat64, hzero]
    norm_num
  refine ⟨⟨by decide, by decide, by decide, rfl, rfl, ?_⟩,
    ⟨by decide, by decide, by decide, ?_, ?_, ?_⟩, ⟨by decide, by decide, ?_, ?_, ?_⟩⟩
  · rw [CompareNumbers_floating (Number.double (Float64.finite false (2 ^ 52) (-52)))
      (Number.double (Float64.finite false 0 (-1074))) (fun hc => Float64.noConfusion hc)
      (fun hc => Float64.noConfusion hc)]
    simp only [Number.key, Float64.ext, key_coe_lt, hzero, finVal]
    norm_num
  · exact CompareNumbers_double_eq _ _ (Float64.finite false (2 ^ 52) 1) rfl ofInt_tie rfl
  · exact (compare_int_double (2 ^ 53) _ (by decide) hv53).2
  · rw [CompareNumbers_exact (Number.int (2 ^ 53 + 1)) (Number.int (2 ^ 53)) trivial trivial]
    simp only [Number.key, key_coe_lt]
    norm_num
  · exact CompareNumbers_double_eq _ _ (Float64.finite false 0 (-1074)) rfl ofInt_wrap_pow64 rfl
  · exact (compare_int_double 0 _ (by decide) hv0).2
  · rw [CompareNumbers_exact (Number.bigInt (2 ^ 64)) (Number.int 0) trivial trivial]
    simp only [Number.key, key_coe_lt]
    norm_num

/-- C7: cross-kind equality by value. For an Integer `n` and a Float `d` whose
exact value is `n`, `CompareNumbers` gives 0 in both orders; for a Rational `r`
and a Float `d` whose exact value is `r`, `CompareNumbers` gives 0 in both
orders; and for a BigInteger `b` and an Integer `i` with `b > i`,
`CompareNumbers(b, i)` is 1. -/
theorem CompareNumbers_cross_kind (n : ℤ) (d1 : Float64) (r : ℚ) (d2 : Float64) (b i : ℤ)
    (_hn : inInt64 n) (hd1 : d1.WF) (hv1 : d1.SetFloat64 = some (n : ℚ))
    (hd2 : d2.WF) (hv2 : d2.SetFloat64 = some r) (hbi : i < b) :
    (CompareNumbers (Number.int n) (Number.double d1) = Except.ok 0 ∧
      CompareNumbers (Number.double d1) (Number.int n) = Except.ok 0) ∧
    (CompareNumbers (Number.ratio r) (Number.double d2) = Except.ok 0 ∧
      CompareNumbers (Number.double d2) (Number.ratio r) = Except.ok 0) ∧
    CompareNumbers (Number.bigInt b) (Number.int i) = Except.ok 1 := by
  refine ⟨compare_int_double n d1 hd1 hv1, compare_ratio_double r d2 hd2 hv2, ?_⟩
  rw [CompareNumbers_exact (Number.bigInt b) (Number.int i) trivial trivial]
  simp only [Number.key, key_coe_lt, Int.cast_lt]
  rw [if_neg (not_lt.2 (le_of_lt hbi)), if_pos hbi]

/-- C7 (witness): `compare(3, 3.0) = 0`, `compare(1/2, 0.5) = 0` and
`compare(BigInteger 2, Integer 1) = 1`; the Float 3.0 is `6755399441055744 *
2^-51` and the Float 0.5 is `2^52 * 2^-53`. -/
theorem CompareNumbers_cross_kind_witness :
    (CompareNumbers (Number.int 3)
        (Number.double (Float64.finite false 6755399441055744 (-51))) = Except.ok 0 ∧
      CompareNumbers (Number.double (Float64.finite false 6755399441055744 (-51)))
        (Number.int 3) = Except.ok 0) ∧
    (CompareNumbers (Number.ratio (1 / 2))
        (Number.double (Float64.finite false 4503599627370496 (-53))) = Except.ok 0 ∧
      CompareNumbers (Number.double (Float64.finite false 4503599627370496 (-53)))
        (Number.ratio (1 / 2)) = Except.ok 0) ∧
    CompareNumbers (Number.bigInt 2) (Number.int 1) = Except.ok 1 :=
  CompareNumbers_cross_kind 3 (Float64.finite false 6755399441055744 (-51)) (1 / 2)
    (Float64.finite false 4503599627370496 (-53)) 2 1 (by decide) (by decide)
    (by simp only [Float64.SetFloat64, finVal]; norm_num) (by decide)
    (by simp only [Float64.SetFloat64, finVal]; norm_num) (by decide)

/-- C10: the round trip Float -> Rational -> Float is exact. For every finite
Float `d = ±mant * 2^exp`, `Double.Ratio()` is the Rational `±mant * 2^exp`,
and `Ratio.Double()` of that Rational is a Float equal to `d` (`==`); it is
`d` itself, bit for bit, unless `d` is the negative zero, which comes back as
the positive zero. -/
theorem Double_Ratio_Double_roundtrip (neg : Bool) (mant : ℕ) (exp : ℤ)
    (hd : (Float64.finite neg mant exp).WF) :
    ∃ r : ℚ, (Number.double (Float64.finite neg mant exp)).Ratio = some r ∧
      r = (if neg then -1 else 1) * (mant : ℚ) * 2 ^ exp ∧
      Float64.eq (Number.ratio r).Double (Float64.finite neg mant exp) = true ∧
      (¬ (neg = true ∧ mant = 0) → (Number.ratio r).Double = Float64.finite neg mant exp) ∧
      ((neg = true ∧ mant = 0) → (Number.ratio r).Double = Float64.finite false mant exp) := by
  refine ⟨finVal neg mant exp, rfl, rfl, ?_, ?_, ?_⟩
  · simp only [Number.Double, Rat_Float64_finVal neg mant exp hd, Float64.eq]
    by_cases hm : mant = 0
    · subst hm
      simp [finVal_zero]
    · simp [hm]
  · intro hnz
    simp only [Number.Double, Rat_Float64_finVal neg mant exp hd]
    by_cases hm : mant = 0
    · have hn : neg = false := by
        cases neg
        · rfl
        · exact absurd ⟨rfl, hm⟩ hnz
      rw [if_pos hm, hn]
    · rw [if_neg hm]
  · rintro ⟨_, hm⟩
    simp only [Number.Double, Rat_Float64_finVal neg mant exp hd]
    rw [if_pos hm]

/-- C10 (witness): the Float 2.5, which is `5629499534213120 * 2^-51`. -/
theorem Double_Ratio_Double_roundtrip_witness :
    (Float64.finite false 5629499534213120 (-51)).WF ∧
    ∃ r : ℚ, (Number.double (Float64.finite false 5629499534213120 (-51))).Ratio = some r ∧
      r = (if false = true then -1 else 1) * ((5629499534213120 : ℕ) : ℚ) * 2 ^ (-51 : ℤ) ∧
      Float64.eq (Number.ratio r).Double (Float64.finite false 5629499534213120 (-51)) = true ∧
      (¬ (false = true ∧ 5629499534213120 = 0) →
        (Number.ratio r).Double = Float64.finite false 5629499534213120 (-51)) ∧
      ((false = true ∧ 5629499534213120 = 0) →
        (Number.ratio r).Double = Float64.finite false 5629499534213120 (-51)) :=
  ⟨by decide, Double_Ratio_Double_roundtrip false 5629499534213120 (-51) (by decide)⟩

/-! ### Narrowing and wrapping -/

theorem wrap64_inInt64 (z : ℤ) : inInt64 (wrap64 z) := by
  unfold inInt64 wrap64
  omega

theorem wrap64_emod (z : ℤ) : wrap64 z % 2 ^ 64 = z % 2 ^ 64 := by
  unfold wrap64
  omega

theorem wrap64_eq_iff (z : ℤ) : wrap64 z = z ↔ inInt64 z := by
  constructor
  · intro h
    rw [← h]
    exact wrap64_inInt64 z
  · exact wrap64_of_inInt64

/-- C12: `GetOps` maps a Float to `DOUBLE_OPS`, a BigInteger to `BIGINT_OPS`, a
BigFloat to `BIGFLOAT_OPS`, a Rational to `RATIO_OPS`, an Integer to `INT_OPS`,
and every other value to `INT_OPS` as well; it is total. -/
theorem GetOps_classification (d : Float64) (b : ℤ) (f : big.Float) (r : ℚ) (i : ℤ) :
    GetOps (Object.number (Number.double d)) = Ops.DoubleOps ∧
    GetOps (Object.number (Number.bigInt b)) = Ops.BigIntOps ∧
    GetOps (Object.number (Number.bigFloat f)) = Ops.BigFloatOps ∧
    GetOps (Object.number (Number.ratio r)) = Ops.RatioOps ∧
    GetOps (Object.number (Number.int i)) = Ops.IntOps ∧
    GetOps Object.other = Ops.IntOps :=
  ⟨rfl, rfl, rfl, rfl, rfl, rfl⟩

/-- C15: `BigInt.Int()` wraps and never fails: for every BigInteger `b` the
result lies in `[-2^63, 2^63)`, is congruent to `b` modulo `2^64`, and is `b`
itself exactly when `b` lies in that range. -/
theorem BigInt_Int_wraps (b : ℤ) :
    inInt64 (Number.bigInt b).Int ∧
    (Number.bigInt b).Int % 2 ^ 64 = b % 2 ^ 64 ∧
    ((Number.bigInt b).Int = b ↔ inInt64 b) :=
  ⟨wrap64_inInt64 b, wrap64_emod b, wrap64_eq_iff b⟩

/-- C20: `IntOps.Add`, `IntOps.Subtract` and `IntOps.Multiply` always return an
Integer (never a BigInteger): the value in `[-2^63, 2^63)` congruent modulo
`2^64` to the exact sum, difference or product, which is the exact result
exactly when that result fits in 64 bits. -/
theorem IntOps_arith_wraps (x y : ℤ) :
    (∃ r, IntOps.Add (Number.int x) (Number.int y) = Except.ok (Number.int r) ∧
      inInt64 r ∧ r % 2 ^ 64 = (x + y) % 2 ^ 64 ∧ (r = x + y ↔ inInt64 (x + y))) ∧
    (∃ r, IntOps.Subtract (Number.int x) (Number.int y) = Except.ok (Number.int r) ∧
      inInt64 r ∧ r % 2 ^ 64 = (x - y) % 2 ^ 64 ∧ (r = x - y ↔ inInt64 (x - y))) ∧
    (∃ r, IntOps.Multiply (Number.int x) (Number.int y) = Except.ok (Number.int r) ∧
      inInt64 r ∧ r % 2 ^ 64 = (x * y) % 2 ^ 64 ∧ (r = x * y ↔ inInt64 (x * y))) :=
  ⟨⟨_, rfl, wrap64_inInt64 _, wrap64_emod _, wrap64_eq_iff _⟩,
    ⟨_, rfl, wrap64_inInt64 _, wrap64_emod _, wrap64_eq_iff _⟩,
    ⟨_, rfl, wrap64_inInt64 _, wrap64_emod _, wrap64_eq_iff _⟩⟩

theorem Rat_Float64_pow64 :
    Rat_Float64 (((2 ^ 64 : ℤ)) : ℚ) = Float64.finite false (2 ^ 52) 12 := by
  have hv : ((2 ^ 64 : ℤ) : ℚ) = finVal false (2 ^ 52) 12 := by norm_num [finVal]
  rw [hv, Rat_Float64_finVal false (2 ^ 52) 12 (by decide)]
  norm_num

/-- C16: `BigInt.Double()` goes through the 64-bit intermediate: for every
BigInteger `b` it is `Int.Double()` of the Integer `b.Int()`. For `b = 2^64`
the result is the Float 0.0, although the double nearest to `2^64` is `2^64`
itself (`2^52 * 2^12`). -/
theorem BigInt_Double_via_Int (b : ℤ) :
    (Number.bigInt b).Double = (Number.int (Number.bigInt b).Int).Double ∧
    (Number.bigInt (2 ^ 64)).Double = Float64.finite false 0 (-1074) ∧
    Rat_Float64 (((2 ^ 64 : ℤ)) : ℚ) = Float64.finite false (2 ^ 52) 12 :=
  ⟨rfl, ofInt_wrap_pow64, Rat_Float64_pow64⟩

/-! ### Truncation of a double -/

theorem finTrunc_eq_floor (neg : Bool) (m : ℕ) (e : ℤ) :
    finTrunc neg m e = (if neg then -1 else 1) * ⌊(m : ℚ) * 2 ^ e⌋ := by
  unfold finTrunc
  congr 1
  by_cases he : 0 ≤ e
  · rw [if_pos he]
    obtain ⟨k, rfl⟩ := Int.eq_ofNat_of_zero_le he
    rw [Int.toNat_ofNat, zpow_natCast]
    have h : (m : ℚ) * 2 ^ k = ((m * 2 ^ k : ℕ) : ℚ) := by push_cast; rfl
    rw [h]
    exact (Int.floor_natCast _).symm
  · rw [if_neg he]
    obtain ⟨k, hk⟩ := Int.eq_ofNat_of_zero_le (show 0 ≤ -e by omega)
    have he2 : e = -(k : ℤ) := by omega
    rw [hk, Int.toNat_ofNat, he2, zpow_neg, zpow_natCast]
    have h : (m : ℚ) * ((2 : ℚ) ^ k)⁻¹ = (((m : ℤ)) : ℚ) / (((2 ^ k : ℕ)) : ℚ) := by
      push_cast
      rw [div_eq_mul_inv]
    rw [h, Rat.floor_intCast_div_natCast]
    push_cast
    rfl

/-- C17: the Rational conversions factor through the Float approximation: with
`d = r.Double()` (the nearest double of `r`), `r.Int() = d.Int()`,
`r.BigInt() = d.BigInt()` and `r.BigFloat() = d.BigFloat()`; and when `d` is
the finite double `±mant * 2^exp` whose integer part fits in 64 bits, `r.Int()`
and `r.BigInt()` are that integer part, the magnitude rounded down with the
sign put back (truncation toward zero). -/
theorem Ratio_conversions_via_Double (r : ℚ) :
    (Number.ratio r).Double = Rat_Float64 r ∧
    (Number.ratio r).Int = (Number.double (Number.ratio r).Double).Int ∧
    (Number.ratio r).BigInt = (Number.double (Number.ratio r).Double).BigInt ∧
    (Number.ratio r).BigFloat = (Number.double (Number.ratio r).Double).BigFloat ∧
    (∀ neg mant exp, (Number.ratio r).Double = Float64.finite neg mant exp →
      inInt64 ((if neg then -1 else 1) * ⌊(mant : ℚ) * 2 ^ exp⌋) →
      (Number.ratio r).Int = (if neg then -1 else 1) * ⌊(mant : ℚ) * 2 ^ exp⌋ ∧
      (Number.ratio r).BigInt = some ((if neg then -1 else 1) * ⌊(mant : ℚ) * 2 ^ exp⌋)) := by
  refine ⟨rfl, rfl, rfl, rfl, ?_⟩
  intro neg mant exp hd hr
  rw [← finTrunc_eq_floor] at hr ⊢
  have hd2 : Rat_Float64 r = Float64.finite neg mant exp := hd
  simp only [Number.Int, Number.BigInt, hd2, Float64.toInt64, if_pos hr]
  exact ⟨trivial, trivial⟩

theorem Rat_Float64_five_halves :
    Rat_Float64 (5 / 2) = Float64.finite false 5629499534213120 (-51) := by
  have hv : (5 / 2 : ℚ) = finVal false 5629499534213120 (-51) := by norm_num [finVal]
  rw [hv, Rat_Float64_finVal false 5629499534213120 (-51) (by decide)]
  norm_num

theorem Rat_Float64_neg_five_halves :
    Rat_Float64 (-5 / 2) = Float64.finite true 5629499534213120 (-51) := by
  have hv : (-5 / 2 : ℚ) = finVal true 5629499534213120 (-51) := by norm_num [finVal]
  rw [hv, Rat_Float64_finVal true 5629499534213120 (-51) (by decide)]
  norm_num

/-- C17 (witness): the Rational `-5/2`, whose Float is `-2.5`, converts to the
Integer and to the BigInteger `-2`. -/
theorem Ratio_conversions_via_Double_witness :
    (Number.ratio (-5 / 2)).Int = -2 ∧ (Number.ratio (-5 / 2)).BigInt = some (-2) := by
  have h := (Ratio_conversions_via_Double (-5 / 2)).2.2.2.2 true 5629499534213120 (-51)
    Rat_Float64_neg_five_halves
  have hf : ((if true = true then -1 else 1) * ⌊((5629499534213120 : ℕ) : ℚ) * 2 ^ (-51 : ℤ)⌋ : ℤ)
      = -2 := by
    have h2 : ((5629499534213120 : ℕ) : ℚ) * 2 ^ (-51 : ℤ) = 5 / 2 := by norm_num
    rw [h2]
    norm_num
  rw [hf] at h
  exact h (by decide)

/-! ### The comparator on the exact kinds -/

theorem exactValue_key (x : Number) (v : ℚ) (h : x.exactValue = some v) :
    x.isExact ∧ x.key = ((v : WithTop ℚ) : WithBot (WithTop ℚ)) := by
  cases x <;> simp [Number.exactValue] at h <;> subst h <;> exact ⟨trivial, rfl⟩

/-- C18: on the exact kinds the comparator is the true numeric order: for `x`
and `y` each an Integer, a BigInteger or a Rational (any mix), with values `vx`
and `vy`, `CompareNumbers(x, y)` is -1 when `vx < vy`, +1 when `vx > vy`, and
it is 0 if and only if `vx = vy`. -/
theorem CompareNumbers_exact_order (x y : Number) (vx vy : ℚ)
    (hx : x.exactValue = some vx) (hy : y.exactValue = some vy) :
    (vx < vy → CompareNumbers x y = Except.ok (-1)) ∧
    (vy < vx → CompareNumbers x y = Except.ok 1) ∧
    (CompareNumbers x y = Except.ok 0 ↔ vx = vy) := by
  obtain ⟨hxe, hxk⟩ := exactValue_key x vx hx
  obtain ⟨hye, hyk⟩ := exactValue_key y vy hy
  rw [CompareNumbers_exact x y hxe hye, hxk, hyk]
  simp only [key_coe_lt]
  refine ⟨fun h => by rw [if_pos h], fun h => by rw [if_neg (not_lt.2 (le_of_lt h)), if_pos h], ?_⟩
  rw [Except.ok.injEq]
  exact cmp3_eq_iff vx vy

/-- C18 (witness): the Integer 1 against the Rational 3/2, and the BigInteger 2
against the Integer 2. -/
theorem CompareNumbers_exact_order_witness :
    CompareNumbers (Number.int 1) (Number.ratio (3 / 2)) = Except.ok (-1) ∧
    CompareNumbers (Number.ratio (3 / 2)) (Number.int 1) = Except.ok 1 ∧
    CompareNumbers (Number.bigInt 2) (Number.int 2) = Except.ok 0 :=
  ⟨(CompareNumbers_exact_order (Number.int 1) (Number.ratio (3 / 2)) ((1 : ℤ) : ℚ) (3 / 2)
      rfl rfl).1 (by norm_num),
    (CompareNumbers_exact_order (Number.ratio (3 / 2)) (Number.int 1) (3 / 2) ((1 : ℤ) : ℚ)
      rfl rfl).2.1 (by norm_num),
    (CompareNumbers_exact_order (Number.bigInt 2) (Number.int 2) ((2 : ℤ) : ℚ) ((2 : ℤ) : ℚ)
      rfl rfl).2.2.2 rfl⟩

/-! ### Float division -/

/-- C13: Float division never fails. For two Floats the governing table is
`DoubleOps`, and `DoubleOps.Divide` returns a Float for all operands; a finite
non-zero dividend over a zero gives the infinity whose sign is the exclusive or
of the two signs (`1.0 / 0.0 = +Inf`), and a zero over a zero gives NaN. -/
theorem DoubleOps_Divide_never_fails (x y : Number) (a b : Float64)
    (n1 n2 : Bool) (m1 : ℕ) (e1 e2 : ℤ) :
    (GetOps (Object.number (Number.double a))).Combine (GetOps (Object.number (Number.double b)))
      = Ops.DoubleOps ∧
    (∃ d, DoubleOps.Divide x y = Except.ok (Number.double d)) ∧
    DoubleOps.Divide (Number.double a) (Number.double b)
      = Except.ok (Number.double (Float64.div a b)) ∧
    DoubleOps.Divide (Number.double (Float64.finite n1 m1 e1))
        (Number.double (Float64.finite n2 0 e2))
      = Except.ok (Number.double
          (if m1 = 0 then Float64.nan else Float64.inf (xor n1 n2))) ∧
    DoubleOps.Divide (Number.double (Float64.finite false (2 ^ 52) (-52)))
        (Number.double (Float64.finite false 0 (-1074)))
      = Except.ok (Number.double (Float64.inf false)) := by
  refine ⟨rfl, ⟨_, rfl⟩, rfl, ?_, ?_⟩
  · simp [DoubleOps.Divide, Number.Double, Float64.div]
  · simp [DoubleOps.Divide, Number.Double, Float64.div]

/-! ### Antisymmetry of the comparator -/

theorem Float64.lt_asymm (a b : Float64) (h : Float64.lt a b = true) :
    Float64.lt b a = false := by
  cases a with
  | nan => simp [Float64.lt] at h
  | inf n1 =>
    cases b with
    | nan => simp [Float64.lt] at h
    | inf n2 => cases n1 <;> cases n2 <;> simp [Float64.lt] at h ⊢
    | finite n2 m2 e2 => cases n1 <;> simp [Float64.lt] at h ⊢
  | finite n1 m1 e1 =>
    cases b with
    | nan => simp [Float64.lt] at h
    | inf n2 => cases n2 <;> simp [Float64.lt] at h ⊢
    | finite n2 m2 e2 =>
      simp only [Float64.lt, decide_eq_true_eq, decide_eq_false_iff_not, not_lt] at h ⊢
      exact le_of_lt h

theorem Float64.round_ne_nan (neg : Bool) (q : ℚ) : Float64.round neg q ≠ Float64.nan := by
  unfold Float64.round
  by_cases hq : q ≤ 0
  · rw [if_pos hq]
    exact fun h => Float64.noConfusion h
  · rw [if_neg hq]
    simp only []
    split_ifs <;> exact fun h => Float64.noConfusion h

theorem Combine_comm_aux (a b : Ops) : a.Combine b = b.Combine a := by
  cases a <;> cases b <;> rfl

theorem compare_of_Lt (x y : Number) (b1 b2 : Bool)
    (h1 : ((GetOps (Object.number x)).Combine (GetOps (Object.number y))).Lt x y = Except.ok b1)
    (h2 : ((GetOps (Object.number x)).Combine (GetOps (Object.number y))).Lt y x = Except.ok b2) :
    CompareNumbers x y = Except.ok (if b1 = true then -1 else if b2 = true then 1 else 0) ∧
    CompareNumbers y x = Except.ok (if b2 = true then -1 else if b1 = true then 1 else 0) := by
  constructor
  · unfold CompareNumbers
    simp only [h1, h2]
    cases b1 <;> cases b2 <;> rfl
  · unfold CompareNumbers
    rw [Combine_comm_aux]
    simp only [h1, h2]
    cases b1 <;> cases b2 <;> rfl

theorem IntOps_Lt_pair (x y : Number) :
    ∃ b1 b2, IntOps.Lt x y = Except.ok b1 ∧ IntOps.Lt y x = Except.ok b2 ∧
      ¬ (b1 = true ∧ b2 = true) := by
  refine ⟨_, _, rfl, rfl, ?_⟩
  simp only [decide_eq_true_eq]
  exact fun h => lt_asymm h.1 h.2

theorem DoubleOps_Lt_pair (x y : Number) :
    ∃ b1 b2, DoubleOps.Lt x y = Except.ok b1 ∧ DoubleOps.Lt y x = Except.ok b2 ∧
      ¬ (b1 = true ∧ b2 = true) := by
  refine ⟨_, _, rfl, rfl, ?_⟩
  rintro ⟨h1, h2⟩
  rw [Float64.lt_asymm _ _ h1] at h2
  exact Bool.noConfusion h2

theorem BigIntOps_Lt_pair (x y : Number) (hx' : ∃ a, x.BigInt = some a)
    (hy' : ∃ b, y.BigInt = some b) :
    ∃ b1 b2, BigIntOps.Lt x y = Except.ok b1 ∧ BigIntOps.Lt y x = Except.ok b2 ∧
      ¬ (b1 = true ∧ b2 = true) := by
  obtain ⟨a, hx⟩ := hx'
  obtain ⟨b, hy⟩ := hy'
  refine ⟨decide (a < b), decide (b < a), ?_, ?_, ?_⟩
  · simp only [BigIntOps.Lt, hx, hy, big.Int.Cmp, cmp3_neg_iff]
  · simp only [BigIntOps.Lt, hx, hy, big.Int.Cmp, cmp3_neg_iff]
  · simp only [decide_eq_true_eq]
    exact fun h => lt_asymm h.1 h.2

theorem RatioOps_Lt_pair (x y : Number) (hx' : ∃ a, x.Ratio = some a)
    (hy' : ∃ b, y.Ratio = some b) :
    ∃ b1 b2, RatioOps.Lt x y = Except.ok b1 ∧ RatioOps.Lt y x = Except.ok b2 ∧
      ¬ (b1 = true ∧ b2 = true) := by
  obtain ⟨a, hx⟩ := hx'
  obtain ⟨b, hy⟩ := hy'
  refine ⟨decide (a < b), decide (b < a), ?_, ?_, ?_⟩
  · simp only [RatioOps.Lt, hx, hy, big.Rat.Cmp, cmp3_neg_iff]
  · simp only [RatioOps.Lt, hx, hy, big.Rat.Cmp, cmp3_neg_iff]
  · simp only [decide_eq_true_eq]
    exact fun h => lt_asymm h.1 h.2

theorem BigFloatOps_Lt_pair (x y : Number) (f g : big.Float) (hx : x.BigFloat = Except.ok f)
    (hy : y.BigFloat = Except.ok g) :
    ∃ b1 b2, BigFloatOps.Lt x y = Except.ok b1 ∧ BigFloatOps.Lt y x = Except.ok b2 ∧
      ¬ (b1 = true ∧ b2 = true) := by
  refine ⟨decide (f.ext < g.ext), decide (g.ext < f.ext), ?_, ?_, ?_⟩
  · simp only [BigFloatOps.Lt, hx, hy, big.Float.Cmp_neg_iff]
  · simp only [BigFloatOps.Lt, hx, hy, big.Float.Cmp_neg_iff]
  · simp only [decide_eq_true_eq]
    exact fun h => lt_asymm h.1 h.2

theorem Number.BigFloat_ok (x : Number) (hx : x ≠ Number.double Float64.nan) :
    ∃ f, x.BigFloat = Except.ok f := by
  cases x with
  | int i =>
    obtain ⟨f, hf, _⟩ := big.NewFloat_ext (Float64.ofInt i) (Float64.round_ne_nan _ _)
    exact ⟨f, hf⟩
  | double d =>
    obtain ⟨f, hf, _⟩ := big.NewFloat_ext d (fun h => hx (by rw [h]))
    exact ⟨f, hf⟩
  | bigInt b => exact ⟨_, rfl⟩
  | bigFloat b => exact ⟨_, rfl⟩
  | ratio r =>
    obtain ⟨f, hf, _⟩ := big.NewFloat_ext (Rat_Float64 r) (Float64.round_ne_nan _ _)
    exact ⟨f, hf⟩

theorem Lt_pair (x y : Number)
    (h : ¬ ((x = Number.double Float64.nan ∧ GetOps (Object.number y) = Ops.BigFloatOps) ∨
      (y = Number.double Float64.nan ∧ GetOps (Object.number x) = Ops.BigFloatOps))) :
    ∃ b1 b2,
      ((GetOps (Object.number x)).Combine (GetOps (Object.number y))).Lt x y = Except.ok b1 ∧
      ((GetOps (Object.number x)).Combine (GetOps (Object.number y))).Lt y x = Except.ok b2 ∧
      ¬ (b1 = true ∧ b2 = true) := by
  generalize hops : (GetOps (Object.number x)).Combine (GetOps (Object.number y)) = ops
  cases ops with
  | IntOps => exact IntOps_Lt_pair x y
  | DoubleOps => exact DoubleOps_Lt_pair x y
  | BigIntOps =>
    cases x <;> cases y <;> simp only [Ops.Lt] <;> first
      | exact BigIntOps_Lt_pair _ _ ⟨_, rfl⟩ ⟨_, rfl⟩
      | simp [GetOps, Ops.Combine, IntOps.Combine, DoubleOps.Combine, BigIntOps.Combine,
          BigFloatOps.Combine, RatioOps.Combine] at hops
  | RatioOps =>
    cases x <;> cases y <;> simp only [Ops.Lt] <;> first
      | exact RatioOps_Lt_pair _ _ ⟨_, rfl⟩ ⟨_, rfl⟩
      | simp [GetOps, Ops.Combine, IntOps.Combine, DoubleOps.Combine, BigIntOps.Combine,
          BigFloatOps.Combine, RatioOps.Combine] at hops
  | BigFloatOps =>
    have hx : x ≠ Number.double Float64.nan := by
      intro hx
      apply h
      left
      refine ⟨hx, ?_⟩
      subst hx
      cases y <;> first
        | rfl
        | simp [GetOps, Ops.Combine, IntOps.Combine, DoubleOps.Combine, BigIntOps.Combine,
            BigFloatOps.Combine, RatioOps.Combine] at hops
    have hy : y ≠ Number.double Float64.nan := by
      intro hy
      apply h
      right
      refine ⟨hy, ?_⟩
      subst hy
      cases x <;> first
        | rfl
        | simp [GetOps, Ops.Combine, IntOps.Combine, DoubleOps.Combine, BigIntOps.Combine,
            BigFloatOps.Combine, RatioOps.Combine] at hops
    obtain ⟨f, hf⟩ := Number.BigFloat_ok x hx
    obtain ⟨g, hg⟩ := Number.BigFloat_ok y hy
    exact BigFloatOps_Lt_pair x y f g hf hg

theorem CompareNumbers_self (x : Number) : CompareNumbers x x = Except.ok 0 := by
  have h : ¬ ((x = Number.double Float64.nan ∧ GetOps (Object.number x) = Ops.BigFloatOps) ∨
      (x = Number.double Float64.nan ∧ GetOps (Object.number x) = Ops.BigFloatOps)) := by
    rintro (⟨hx, hg⟩ | ⟨hx, hg⟩) <;> subst hx <;> simp [GetOps] at hg
  obtain ⟨b1, b2, h1, h2, hasym⟩ := Lt_pair x x h
  have hb : b1 = b2 := by
    rw [h1] at h2
    exact Except.ok.inj h2
  subst hb
  have hc := (compare_of_Lt x x b1 b1 h1 h1).1
  rw [hc]
  cases b1
  · rfl
  · exact absurd ⟨rfl, rfl⟩ hasym

/-- C19 (counterexample): for the Float NaN and the BigFloat 1 the comparator
returns no result in either order: the conversion of NaN to a BigFloat panics
with `ErrNaN`. -/
theorem CompareNumbers_nan_bigFloat_panics :
    (Number.double Float64.nan).WF ∧ (Number.bigFloat (big.Float.finite false 1 0)).WF ∧
    CompareNumbers (Number.double Float64.nan) (Number.bigFloat (big.Float.finite false 1 0))
      = Except.error Panic.errNaN ∧
    CompareNumbers (Number.bigFloat (big.Float.finite false 1 0)) (Number.double Float64.nan)
      = Except.error Panic.errNaN :=
  ⟨trivial, trivial, rfl, rfl⟩

/-- C19 (amended): for all numbers `x` and `y` of the five kinds, unless one of
them is the Float NaN and the other a BigFloat, `CompareNumbers` returns a
result in both orders, `CompareNumbers(x, y) = -CompareNumbers(y, x)`, and the
result is one of -1, 0, +1; and `CompareNumbers(x, x) = 0` for every `x`. -/
theorem CompareNumbers_antisymm (x y : Number)
    (h : ¬ ((x = Number.double Float64.nan ∧ GetOps (Object.number y) = Ops.BigFloatOps) ∨
      (y = Number.double Float64.nan ∧ GetOps (Object.number x) = Ops.BigFloatOps))) :
    (∃ c c' : ℤ, CompareNumbers x y = Except.ok c ∧ CompareNumbers y x = Except.ok c' ∧
      c = -c' ∧ (c = -1 ∨ c = 0 ∨ c = 1)) ∧
    CompareNumbers x x = Except.ok 0 ∧ CompareNumbers y y = Except.ok 0 := by
  refine ⟨?_, CompareNumbers_self x, CompareNumbers_self y⟩
  obtain ⟨b1, b2, h1, h2, hasym⟩ := Lt_pair x y h
  obtain ⟨hc1, hc2⟩ := compare_of_Lt x y b1 b2 h1 h2
  refine ⟨_, _, hc1, hc2, ?_, ?_⟩
  · cases b1 <;> cases b2 <;> first | rfl | exact absurd ⟨rfl, rfl⟩ hasym
  · cases b1 <;> cases b2 <;> simp

/-- C19 (witness): the Integer 3 against the Float NaN (both orders give 0), a
pair the hypothesis admits. -/
theorem CompareNumbers_antisymm_witness :
    (∃ c c' : ℤ, CompareNumbers (Number.int 3) (Number.double Float64.nan) = Except.ok c ∧
      CompareNumbers (Number.double Float64.nan) (Number.int 3) = Except.ok c' ∧
      c = -c' ∧ (c = -1 ∨ c = 0 ∨ c = 1)) ∧
    CompareNumbers (Number.int 3) (Number.int 3) = Except.ok 0 ∧
    CompareNumbers (Number.double Float64.nan) (Number.double Float64.nan) = Except.ok 0 :=
  CompareNumbers_antisymm (Number.int 3) (Number.double Float64.nan)
    (by
      rintro (⟨hx, _⟩ | ⟨_, hg⟩)
      · exact Number.noConfusion hx
      · exact Ops.noConfusion hg)

/-! ### Widening an Integer -/

theorem sign_natAbs (i : ℤ) :
    (if decide (i < 0) = true then (-1 : ℚ) else 1) * ((i.natAbs : ℕ) : ℚ) = (i : ℚ) := by
  rw [Int.cast_natAbs]
  by_cases h : i < 0
  · simp only [h, decide_True, if_true, abs_of_neg h]
    push_cast
    ring
  · simp only [h, decide_False, Bool.false_eq_true, if_false, one_mul, abs_of_nonneg (not_lt.1 h)]

theorem exists_double_of_nat (neg : Bool) (n : ℕ) (hn : n ≤ 2 ^ 53) :
    ∃ m e, (Float64.finite neg m e).WF ∧ (m : ℚ) * 2 ^ e = (n : ℚ) := by
  by_cases h0 : n = 0
  · subst h0
    exact ⟨0, -1074, by unfold Float64.WF; norm_num, by simp⟩
  by_cases h53 : n = 2 ^ 53
  · subst h53
    refine ⟨2 ^ 52, 1, by unfold Float64.WF; norm_num, ?_⟩
    norm_num
  have hlt : n < 2 ^ 53 := lt_of_le_of_ne hn h53
  have hlo : 2 ^ Nat.log 2 n ≤ n := Nat.pow_log_le_self 2 h0
  have hhi : n < 2 ^ (Nat.log 2 n + 1) := Nat.lt_pow_succ_log_self (by norm_num) n
  have hk : Nat.log 2 n ≤ 52 := by
    have h1 : 2 ^ Nat.log 2 n < 2 ^ 53 := lt_of_le_of_lt hlo hlt
    have h2 := (Nat.pow_lt_pow_iff_right (by norm_num : 1 < 2)).1 h1
    omega
  generalize Nat.log 2 n = k at hlo hhi hk
  have hsplit : 2 ^ k * 2 ^ (52 - k) = 2 ^ 52 := by
    rw [← pow_add]
    congr 1
    omega
  have hsplit1 : 2 ^ (k + 1) * 2 ^ (52 - k) = 2 ^ 53 := by
    rw [← pow_add]
    congr 1
    omega
  have hpos : 0 < 2 ^ (52 - k) := by positivity
  refine ⟨n * 2 ^ (52 - k), (k : ℤ) - 52, ⟨?_, by omega, by omega, ?_⟩, ?_⟩
  · calc n * 2 ^ (52 - k) < 2 ^ (k + 1) * 2 ^ (52 - k) := Nat.mul_lt_mul_of_pos_right hhi hpos
      _ = 2 ^ 53 := hsplit1
  · intro hc
    have : 2 ^ 52 ≤ n * 2 ^ (52 - k) := by
      calc 2 ^ 52 = 2 ^ k * 2 ^ (52 - k) := hsplit.symm
        _ ≤ n * 2 ^ (52 - k) := Nat.mul_le_mul_right _ hlo
    omega
  · have h2 : (2 : ℚ) ≠ 0 := by norm_num
    have he : ((k : ℤ) - 52) = -(((52 - k : ℕ)) : ℤ) := by omega
    rw [he, zpow_neg, zpow_natCast]
    push_cast
    field_simp

theorem ofInt_of_rep (i : ℤ) (m : ℕ) (e : ℤ) (hw : (Float64.finite false m e).WF)
    (hv : (m : ℚ) * 2 ^ e = |(i : ℚ)|) :
    Float64.ofInt i = Float64.finite (decide (i < 0)) m e ∧
    finVal (decide (i < 0)) m e = (i : ℚ) := by
  constructor
  · unfold Float64.ofInt
    rw [← hv]
    exact Float64.round_exact (decide (i < 0)) m e hw
  · unfold finVal
    rw [mul_assoc, hv, ← Int.cast_abs, ← Int.cast_natAbs]
    exact sign_natAbs i

theorem Int_Double_exact (i : ℤ)
    (h : |i| ≤ 2 ^ 53 ∨ ∃ d : Float64, d.WF ∧ d.SetFloat64 = some (i : ℚ)) :
    (Number.int i).Double.SetFloat64 = some (i : ℚ) ∧
    ∃ f, (Number.int i).BigFloat = Except.ok f ∧
      f.ext = (((i : ℚ) : WithTop ℚ) : WithBot (WithTop ℚ)) := by
  have hrep : ∃ m e, (Float64.finite false m e).WF ∧ (m : ℚ) * 2 ^ e = |(i : ℚ)| := by
    rcases h with h | ⟨d, hw, hv⟩
    · have hn : i.natAbs ≤ 2 ^ 53 := by
        have h1 : ((i.natAbs : ℕ) : ℤ) = |i| := Int.natCast_natAbs i
        have h2 : ((i.natAbs : ℕ) : ℤ) ≤ ((2 ^ 53 : ℕ) : ℤ) := by
          rw [h1]
          exact_mod_cast h
        exact_mod_cast h2
      obtain ⟨m, e, hw, hv⟩ := exists_double_of_nat false i.natAbs hn
      refine ⟨m, e, hw, ?_⟩
      rw [hv, Int.cast_natAbs, Int.cast_abs]
    · obtain ⟨neg, m, e, rfl, hq⟩ := SetFloat64_some d (i : ℚ) hv
      refine ⟨m, e, hw, ?_⟩
      rw [← hq, finVal_abs]
  obtain ⟨m, e, hw, hv⟩ := hrep
  obtain ⟨hd, hval⟩ := ofInt_of_rep i m e hw hv
  have hD : (Number.int i).Double = Float64.finite (decide (i < 0)) m e := hd
  refine ⟨?_, big.Float.finite (decide (i < 0)) m e, ?_, ?_⟩
  · rw [hD]
    simp only [Float64.SetFloat64, hval]
  · show big.NewFloat (Float64.ofInt i) = _
    rw [hd]
    rfl
  · simp only [big.Float.ext, hval]

/-- C11 (counterexample): the Integer `2^53 + 1` is not widened exactly:
`Double()` is the Float `2^52 * 2^1 = 2^53` and `BigFloat()` holds the same
value, which is not `2^53 + 1`. -/
theorem Int_Double_inexact :
    inInt64 (2 ^ 53 + 1) ∧
    (Number.int (2 ^ 53 + 1)).Double = Float64.finite false (2 ^ 52) 1 ∧
    (Number.int (2 ^ 53 + 1)).BigFloat = Except.ok (big.Float.finite false (2 ^ 52) 1) ∧
    (Number.int (2 ^ 53 + 1)).Double.SetFloat64 = some (((2 ^ 53 : ℤ)) : ℚ) ∧
    (((2 ^ 53 : ℤ)) : ℚ) ≠ (((2 ^ 53 + 1 : ℤ)) : ℚ) := by
  have hd : (Number.int (2 ^ 53 + 1)).Double = Float64.finite false (2 ^ 52) 1 := ofInt_tie
  refine ⟨by decide, hd, ?_, ?_, by norm_num⟩
  · show big.NewFloat (Number.int (2 ^ 53 + 1)).Double = _
    rw [hd]
    rfl
  · rw [hd]
    simp only [Float64.SetFloat64, finVal]
    norm_num

/-- C11 (amended): for every Integer `i`, `i.BigInt()` and `i.Ratio()` denote
exactly `i`, and `i.BigFloat()` is the BigFloat holding the Float `i.Double()`;
`i.Double()` and `i.BigFloat()` denote exactly `i` whenever `i` is exactly
representable as a double, in particular whenever `|i| <= 2^53`. -/
theorem Int_widening (i : ℤ) :
    (Number.int i).BigInt = some i ∧
    (Number.int i).Ratio = some (i : ℚ) ∧
    (Number.int i).BigFloat = big.NewFloat (Number.int i).Double ∧
    ((|i| ≤ 2 ^ 53 ∨ ∃ d : Float64, d.WF ∧ d.SetFloat64 = some (i : ℚ)) →
      (Number.int i).Double.SetFloat64 = some (i : ℚ) ∧
      ∃ f, (Number.int i).BigFloat = Except.ok f ∧
        f.ext = (((i : ℚ) : WithTop ℚ) : WithBot (WithTop ℚ))) :=
  ⟨rfl, rfl, rfl, Int_Double_exact i⟩

/-- C11 (witness): the Integer -7. -/
theorem Int_widening_witness :
    (Number.int (-7)).BigInt = some (-7) ∧
    (Number.int (-7)).Ratio = some (((-7 : ℤ)) : ℚ) ∧
    (Number.int (-7)).Double.SetFloat64 = some (((-7 : ℤ)) : ℚ) ∧
    ∃ f, (Number.int (-7)).BigFloat = Except.ok f ∧
      f.ext = ((((-7 : ℤ) : ℚ) : WithTop ℚ) : WithBot (WithTop ℚ)) :=
  ⟨(Int_widening (-7)).1, (Int_widening (-7)).2.1,
    ((Int_widening (-7)).2.2.2 (Or.inl (by decide))).1,
    ((Int_widening (-7)).2.2.2 (Or.inl (by decide))).2⟩

/-! ### Rationals in lowest terms -/

theorem RatioOps_IsZero_eq (r : ℚ) :
    RatioOps.IsZero (Number.ratio r) = Except.ok (decide (r = 0)) := by
  simp only [RatioOps.IsZero, Number.Ratio, big.Rat.Sign, Int.sign_eq_zero_iff_zero,
    Rat.num_eq_zero]

theorem compare_ratio_eq_iff (r s : ℚ) :
    CompareNumbers (Number.ratio r) (Number.ratio s) = Except.ok 0 ↔
      r.num = s.num ∧ r.den = s.den := by
  rw [CompareNumbers_exact (Number.ratio r) (Number.ratio s) trivial trivial]
  simp only [Number.key, key_coe_lt]
  rw [Except.ok.injEq, cmp3_eq_iff]
  constructor
  · intro h
    rw [h]
    exact ⟨rfl, rfl⟩
  · rintro ⟨h1, h2⟩
    exact Rat.ext h1 h2

/-! ### Lt, Lte and Gt of the exact tables -/

theorem cmp3_pos_iff {α : Type} [LinearOrder α] (a b : α) :
    ((if a < b then -1 else if b < a then 1 else 0 : ℤ) > 0) ↔ b < a := by
  by_cases h1 : a < b
  · simp [h1, not_lt.2 (le_of_lt h1)]
  · by_cases h2 : b < a <;> simp [h1, h2]

theorem cmp3_nonpos_iff {α : Type} [LinearOrder α] (a b : α) :
    ((if a < b then -1 else if b < a then 1 else 0 : ℤ) ≤ 0) ↔ a ≤ b :=
  cmp3_le_iff a b

theorem order_ops_consistent {α : Type} [LinearOrder α] (a b : α) :
    decide (a ≤ b) = (!decide (b < a)) ∧
    exactlyOne (decide (a < b)) (decide (b < a)) (decide (a ≤ b) && decide (b ≤ a)) = true ∧
    (!decide (a < b)) = decide (b ≤ a) := by
  rcases lt_trichotomy a b with h | h | h
  · have h1 : ¬ b < a := not_lt.2 (le_of_lt h)
    have h2 : a ≤ b := le_of_lt h
    have h3 : ¬ b ≤ a := not_le.2 h
    simp [exactlyOne, h, h1, h2, h3]
  · subst h
    simp [exactlyOne]
  · have h1 : ¬ a < b := not_lt.2 (le_of_lt h)
    have h2 : b ≤ a := le_of_lt h
    have h3 : ¬ a ≤ b := not_le.2 h
    simp [exactlyOne, h, h1, h2, h3]

theorem IntOps_cmp_eval (a b : ℤ) :
    IntOps.Lt (Number.int a) (Number.int b) = Except.ok (decide (a < b)) ∧
    IntOps.Lte (Number.int a) (Number.int b) = Except.ok (decide (a ≤ b)) ∧
    IntOps.Gt (Number.int a) (Number.int b) = Except.ok (decide (b < a)) :=
  ⟨rfl, rfl, rfl⟩

theorem BigIntOps_cmp_eval (a b : ℤ) :
    BigIntOps.Lt (Number.bigInt a) (Number.bigInt b) = Except.ok (decide (a < b)) ∧
    BigIntOps.Lte (Number.bigInt a) (Number.bigInt b) = Except.ok (decide (a ≤ b)) ∧
    BigIntOps.Gt (Number.bigInt a) (Number.bigInt b) = Except.ok (decide (b < a)) := by
  refine ⟨?_, ?_, ?_⟩
  · simp only [BigIntOps.Lt, Number.BigInt, big.Int.Cmp, cmp3_neg_iff]
  · simp only [BigIntOps.Lte, Number.BigInt, big.Int.Cmp, cmp3_nonpos_iff]
  · simp only [BigIntOps.Gt, Number.BigInt, big.Int.Cmp, cmp3_pos_iff]

theorem RatioOps_cmp_eval (a b : ℚ) :
    RatioOps.Lt (Number.ratio a) (Number.ratio b) = Except.ok (decide (a < b)) ∧
    RatioOps.Lte (Number.ratio a) (Number.ratio b) = Except.ok (decide (a ≤ b)) ∧
    RatioOps.Gt (Number.ratio a) (Number.ratio b) = Except.ok (decide (b < a)) := by
  refine ⟨?_, ?_, ?_⟩
  · simp only [RatioOps.Lt, Number.Ratio, big.Rat.Cmp, cmp3_neg_iff]
  · simp only [RatioOps.Lte, Number.Ratio, big.Rat.Cmp, cmp3_nonpos_iff]
  · simp only [RatioOps.Gt, Number.Ratio, big.Rat.Cmp, cmp3_pos_iff]

/-- C21: the comparison operators of the exact tables are mutually consistent.
For `IntOps` on two Integers, `BigIntOps` on two BigIntegers and `RatioOps` on
two Rationals, `Lt`, `Lte` and `Gt` return a boolean in both orders, with
`Gt(x, y) = Lt(y, x)`, `Lte(x, y) = not Gt(x, y)`, exactly one of `Lt(x, y)`,
`Lt(y, x)` and `Lte(x, y) and Lte(y, x)` true, and `not Lt(x, y) = Lte(y, x)`,
so that greater-or-equal is the negation of `Lt`. -/
theorem exact_tables_cmp_consistent (i j : ℤ) (a b : ℤ) (r s : ℚ) :
    (∃ lt lt' lte lte' gt : Bool,
      IntOps.Lt (Number.int i) (Number.int j) = Except.ok lt ∧
      IntOps.Lt (Number.int j) (Number.int i) = Except.ok lt' ∧
      IntOps.Lte (Number.int i) (Number.int j) = Except.ok lte ∧
      IntOps.Lte (Number.int j) (Number.int i) = Except.ok lte' ∧
      IntOps.Gt (Number.int i) (Number.int j) = Except.ok gt ∧
      gt = lt' ∧ lte = (!gt) ∧ exactlyOne lt lt' (lte && lte') = true ∧ (!lt) = lte') ∧
    (∃ lt lt' lte lte' gt : Bool,
      BigIntOps.Lt (Number.bigInt a) (Number.bigInt b) = Except.ok lt ∧
      BigIntOps.Lt (Number.bigInt b) (Number.bigInt a) = Except.ok lt' ∧
      BigIntOps.Lte (Number.bigInt a) (Number.bigInt b) = Except.ok lte ∧
      BigIntOps.Lte (Number.bigInt b) (Number.bigInt a) = Except.ok lte' ∧
      BigIntOps.Gt (Number.bigInt a) (Number.bigInt b) = Except.ok gt ∧
      gt = lt' ∧ lte = (!gt) ∧ exactlyOne lt lt' (lte && lte') = true ∧ (!lt) = lte') ∧
    (∃ lt lt' lte lte' gt : Bool,
      RatioOps.Lt (Number.ratio r) (Number.ratio s) = Except.ok lt ∧
      RatioOps.Lt (Number.ratio s) (Number.ratio r) = Except.ok lt' ∧
      RatioOps.Lte (Number.ratio r) (Number.ratio s) = Except.ok lte ∧
      RatioOps.Lte (Number.ratio s) (Number.ratio r) = Except.ok lte' ∧
      RatioOps.Gt (Number.ratio r) (Number.ratio s) = Except.ok gt ∧
      gt = lt' ∧ lte = (!gt) ∧ exactlyOne lt lt' (lte && lte') = true ∧ (!lt) = lte') := by
  refine ⟨?_, ?_, ?_⟩
  · exact ⟨_, _, _, _, _, (IntOps_cmp_eval i j).1, (IntOps_cmp_eval j i).1,
      (IntOps_cmp_eval i j).2.1, (IntOps_cmp_eval j i).2.1, (IntOps_cmp_eval i j).2.2, rfl,
      (order_ops_consistent i j).1, (order_ops_consistent i j).2.1,
      (order_ops_consistent i j).2.2⟩
  · exact ⟨_, _, _, _, _, (BigIntOps_cmp_eval a b).1, (BigIntOps_cmp_eval b a).1,
      (BigIntOps_cmp_eval a b).2.1, (BigIntOps_cmp_eval b a).2.1, (BigIntOps_cmp_eval a b).2.2,
      rfl, (order_ops_consistent a b).1, (order_ops_consistent a b).2.1,
      (order_ops_consistent a b).2.2⟩
  · exact ⟨_, _, _, _, _, (RatioOps_cmp_eval r s).1, (RatioOps_cmp_eval s r).1,
      (RatioOps_cmp_eval r s).2.1, (RatioOps_cmp_eval s r).2.1, (RatioOps_cmp_eval r s).2.2,
      rfl, (order_ops_consistent r s).1, (order_ops_consistent r s).2.1,
      (order_ops_consistent r s).2.2⟩

/-! ### Normal form of stored fractions -/

theorem big.RatRep.norm_reduced (n : ℤ) (d : ℕ) (hd : 0 < d) :
    (big.RatRep.norm n d).reduced := by
  have hg : 0 < Nat.gcd n.natAbs d := Nat.gcd_pos_of_pos_right _ hd
  have hgd : Nat.gcd n.natAbs d ∣ d := Nat.gcd_dvd_right _ _
  have hgn : ((Nat.gcd n.natAbs d : ℕ) : ℤ) ∣ n := by
    rw [Int.natCast_dvd]
    exact Nat.gcd_dvd_left _ _
  constructor
  · exact Nat.div_pos (Nat.le_of_dvd hd hgd) hg
  · show Nat.gcd (n / (Nat.gcd n.natAbs d : ℤ)).natAbs (d / Nat.gcd n.natAbs d) = 1
    rw [Int.natAbs_ediv _ _ hgn, Int.natAbs_ofNat]
    exact Nat.coprime_div_gcd_div_gcd hg

theorem big.RatRep.norm_toRat (n : ℤ) (d : ℕ) (hd : 0 < d) :
    (big.RatRep.norm n d).toRat = (n : ℚ) / (d : ℚ) := by
  have hg : 0 < Nat.gcd n.natAbs d := Nat.gcd_pos_of_pos_right _ hd
  obtain ⟨d', hd'⟩ := Nat.gcd_dvd_right n.natAbs d
  have hgn : ((Nat.gcd n.natAbs d : ℕ) : ℤ) ∣ n := by
    rw [Int.natCast_dvd]
    exact Nat.gcd_dvd_left _ _
  obtain ⟨n', hn'⟩ := hgn
  have hgq : ((Nat.gcd n.natAbs d : ℕ) : ℚ) ≠ 0 := Nat.cast_ne_zero.2 (Nat.pos_iff_ne_zero.1 hg)
  have hgz : ((Nat.gcd n.natAbs d : ℕ) : ℤ) ≠ 0 := Int.natCast_ne_zero.2 (Nat.pos_iff_ne_zero.1 hg)
  have h1 : n / (Nat.gcd n.natAbs d : ℤ) = n' := Int.ediv_eq_of_eq_mul_right hgz hn'
  have h2 : d / Nat.gcd n.natAbs d = d' := Nat.div_eq_of_eq_mul_right hg hd'
  have hd0 : d' ≠ 0 := by
    rintro rfl
    rw [Nat.mul_zero] at hd'
    omega
  have hd'q : (d' : ℚ) ≠ 0 := Nat.cast_ne_zero.2 hd0
  unfold big.RatRep.norm big.RatRep.toRat
  simp only [h1, h2]
  have e1 : (n : ℚ) = ((Nat.gcd n.natAbs d : ℕ) : ℚ) * (n' : ℚ) := by
    conv_lhs => rw [hn']
    push_cast
    rfl
  have e2 : (d : ℚ) = ((Nat.gcd n.natAbs d : ℕ) : ℚ) * (d' : ℚ) := by
    conv_lhs => rw [hd']
    push_cast
    rfl
  rw [e1, e2]
  field_simp
  ring

theorem big.RatRep.ofRat_toRat (x : big.RatRep) (hx : x.reduced) :
    big.RatRep.ofRat x.toRat = x := by
  obtain ⟨n, d⟩ := x
  obtain ⟨hd, hc⟩ := hx
  simp only at hd hc
  have hd0 : (0 : ℤ) < (d : ℤ) := Int.natCast_pos.2 hd
  have hco : Nat.Coprime n.natAbs (d : ℤ).natAbs := by
    rw [Int.natAbs_ofNat]
    exact hc
  have e : ((d : ℕ) : ℚ) = (((d : ℤ)) : ℚ) := (Int.cast_natCast d).symm
  unfold big.RatRep.ofRat big.RatRep.toRat
  simp only [e]
  rw [Rat.num_div_eq_of_coprime hd0 hco]
  congr 1
  have h2 := Rat.den_div_eq_of_coprime hd0 hco
  exact_mod_cast h2

theorem big.RatRep.ofRat_norm (n : ℤ) (d : ℕ) (hd : 0 < d) :
    big.RatRep.ofRat ((n : ℚ) / (d : ℚ)) = big.RatRep.norm n d := by
  rw [← big.RatRep.norm_toRat n d hd]
  exact big.RatRep.ofRat_toRat _ (big.RatRep.norm_reduced n d hd)

theorem big.RatRep.Add_toRat (x y : big.RatRep) (hx : 0 < x.den) (hy : 0 < y.den) :
    big.RatRep.ofRat (x.toRat + y.toRat) = x.Add y := by
  have h1 : ((x.den : ℕ) : ℚ) ≠ 0 := Nat.cast_ne_zero.2 (Nat.pos_iff_ne_zero.1 hx)
  have h2 : ((y.den : ℕ) : ℚ) ≠ 0 := Nat.cast_ne_zero.2 (Nat.pos_iff_ne_zero.1 hy)
  unfold big.RatRep.Add
  rw [← big.RatRep.ofRat_norm _ _ (Nat.mul_pos hx hy)]
  congr 1
  unfold big.RatRep.toRat
  push_cast
  field_simp

theorem big.RatRep.Sub_toRat (x y : big.RatRep) (hx : 0 < x.den) (hy : 0 < y.den) :
    big.RatRep.ofRat (x.toRat - y.toRat) = x.Sub y := by
  have h1 : ((x.den : ℕ) : ℚ) ≠ 0 := Nat.cast_ne_zero.2 (Nat.pos_iff_ne_zero.1 hx)
  have h2 : ((y.den : ℕ) : ℚ) ≠ 0 := Nat.cast_ne_zero.2 (Nat.pos_iff_ne_zero.1 hy)
  unfold big.RatRep.Sub
  rw [← big.RatRep.ofRat_norm _ _ (Nat.mul_pos hx hy)]
  congr 1
  unfold big.RatRep.toRat
  push_cast
  field_simp
  ring

theorem big.RatRep.Mul_toRat (x y : big.RatRep) (hx : 0 < x.den) (hy : 0 < y.den) :
    big.RatRep.ofRat (x.toRat * y.toRat) = x.Mul y := by
  have h1 : ((x.den : ℕ) : ℚ) ≠ 0 := Nat.cast_ne_zero.2 (Nat.pos_iff_ne_zero.1 hx)
  have h2 : ((y.den : ℕ) : ℚ) ≠ 0 := Nat.cast_ne_zero.2 (Nat.pos_iff_ne_zero.1 hy)
  unfold big.RatRep.Mul
  rw [← big.RatRep.ofRat_norm _ _ (Nat.mul_pos hx hy)]
  congr 1
  unfold big.RatRep.toRat
  push_cast
  field_simp

theorem sign_div_natAbs (a : ℤ) (ha : a ≠ 0) :
    ((Int.sign a : ℤ) : ℚ) / ((a.natAbs : ℕ) : ℚ) = 1 / (a : ℚ) := by
  have haq : (a : ℚ) ≠ 0 := Int.cast_ne_zero.2 ha
  rw [Int.cast_natAbs]
  rcases lt_or_gt_of_ne ha with h | h
  · rw [Int.sign_eq_neg_one_of_neg h, abs_of_neg h]
    push_cast
    field_simp
  · rw [Int.sign_eq_one_of_pos h, abs_of_pos h]
    push_cast
    rfl

theorem big.RatRep.Quo_toRat (x y : big.RatRep) (hx : 0 < x.den) (hy : 0 < y.den)
    (hy0 : y.num ≠ 0) :
    big.RatRep.ofRat (x.toRat / y.toRat) = x.Quo y := by
  have h1 : ((x.den : ℕ) : ℚ) ≠ 0 := Nat.cast_ne_zero.2 (Nat.pos_iff_ne_zero.1 hx)
  have h2 : ((y.den : ℕ) : ℚ) ≠ 0 := Nat.cast_ne_zero.2 (Nat.pos_iff_ne_zero.1 hy)
  have h3 : (y.num : ℚ) ≠ 0 := Int.cast_ne_zero.2 hy0
  have h4 : 0 < y.num.natAbs := Int.natAbs_pos.2 hy0
  have h5 : ((y.num.natAbs : ℕ) : ℚ) ≠ 0 := Nat.cast_ne_zero.2 (Nat.pos_iff_ne_zero.1 h4)
  unfold big.RatRep.Quo
  rw [← big.RatRep.ofRat_norm _ _ (Nat.mul_pos h4 hx)]
  congr 1
  unfold big.RatRep.toRat
  have hs := sign_div_natAbs y.num hy0
  rw [div_eq_iff h5] at hs
  push_cast
  rw [hs]
  field_simp
  ring

theorem big.RatRep.NewRat_toRat (a b : ℤ) (hb : b ≠ 0) :
    big.RatRep.ofRat ((a : ℚ) / (b : ℚ)) = big.RatRep.NewRat a b := by
  have h3 : (b : ℚ) ≠ 0 := Int.cast_ne_zero.2 hb
  have h4 : 0 < b.natAbs := Int.natAbs_pos.2 hb
  have h5 : ((b.natAbs : ℕ) : ℚ) ≠ 0 := Nat.cast_ne_zero.2 (Nat.pos_iff_ne_zero.1 h4)
  unfold big.RatRep.NewRat
  rw [← big.RatRep.ofRat_norm _ _ h4]
  congr 1
  have hs := sign_div_natAbs b hb
  rw [div_eq_iff h5] at hs
  push_cast
  rw [hs]
  field_simp
  ring

theorem big.RatRep.toRat_eq_zero (x : big.RatRep) (hx : 0 < x.den) :
    x.toRat = 0 ↔ x.num = 0 := by
  have h1 : ((x.den : ℕ) : ℚ) ≠ 0 := Nat.cast_ne_zero.2 (Nat.pos_iff_ne_zero.1 hx)
  unfold big.RatRep.toRat
  rw [div_eq_zero_iff]
  simp [h1]

theorem big.RatRep.toRat_inj (x y : big.RatRep) (hx : x.reduced) (hy : y.reduced) :
    x.toRat = y.toRat ↔ x.num = y.num ∧ x.den = y.den := by
  constructor
  · intro h
    have h2 : big.RatRep.ofRat x.toRat = big.RatRep.ofRat y.toRat := by rw [h]
    rw [big.RatRep.ofRat_toRat x hx, big.RatRep.ofRat_toRat y hy] at h2
    rw [h2]
    exact ⟨rfl, rfl⟩
  · rintro ⟨h1, h2⟩
    unfold big.RatRep.toRat
    rw [h1, h2]

/-- C14: Rational results are reduced. A Rational is held as the pair of
integers `math/big` stores, numerator over denominator. For pairs `x` and `y`
in lowest terms with a positive denominator, a divisor `y` other than zero,
and Integers `i`, `j` with `j ≠ 0` not dividing `i`: the pair computed by
`Add`, `Sub`, `Mul` and `Quo` (cross-multiplication followed by the division
by the greatest common divisor), by `NewRat(i, j)` and by `Quo` of `i/1` and
`j/1` is again in lowest terms with a positive denominator, and it is the pair
held by the Rational that `RatioOps.Add`, `Subtract`, `Multiply`, `Divide`,
`IntOps.Divide` and `BigIntOps.Divide` return; `RatioOps.IsZero` holds exactly
when the numerator is 0, which is exactly when the Rational denotes 0; and two
Rationals compare equal exactly when numerators and denominators coincide. -/
theorem Ratio_results_reduced (x y : big.RatRep) (i j : ℤ)
    (hx : x.reduced) (hy : y.reduced) (hy0 : y.num ≠ 0) (hj : j ≠ 0) (hnd : ¬ j ∣ i) :
    (big.RatRep.ofRat x.toRat = x ∧ big.RatRep.ofRat y.toRat = y) ∧
    ((x.Add y).reduced ∧
      ∃ r, RatioOps.Add (Number.ratio x.toRat) (Number.ratio y.toRat)
          = Except.ok (Number.ratio r) ∧ big.RatRep.ofRat r = x.Add y) ∧
    ((x.Sub y).reduced ∧
      ∃ r, RatioOps.Subtract (Number.ratio x.toRat) (Number.ratio y.toRat)
          = Except.ok (Number.ratio r) ∧ big.RatRep.ofRat r = x.Sub y) ∧
    ((x.Mul y).reduced ∧
      ∃ r, RatioOps.Multiply (Number.ratio x.toRat) (Number.ratio y.toRat)
          = Except.ok (Number.ratio r) ∧ big.RatRep.ofRat r = x.Mul y) ∧
    ((x.Quo y).reduced ∧
      ∃ r, RatioOps.Divide (Number.ratio x.toRat) (Number.ratio y.toRat)
          = Except.ok (Number.ratio r) ∧ big.RatRep.ofRat r = x.Quo y) ∧
    ((big.RatRep.NewRat i j).reduced ∧
      ∃ r, IntOps.Divide (Number.int i) (Number.int j) = Except.ok (Number.ratio r) ∧
        big.RatRep.ofRat r = big.RatRep.NewRat i j) ∧
    (((big.RatRep.SetInt i).Quo (big.RatRep.SetInt j)).reduced ∧
      ∃ r, BigIntOps.Divide (Number.bigInt i) (Number.bigInt j)
          = Except.ok (Number.ratio r) ∧
        big.RatRep.ofRat r = (big.RatRep.SetInt i).Quo (big.RatRep.SetInt j)) ∧
    (RatioOps.IsZero (Number.ratio x.toRat) = Except.ok (decide (x.num = 0)) ∧
      (x.num = 0 ↔ x.toRat = 0)) ∧
    (CompareNumbers (Number.ratio x.toRat) (Number.ratio y.toRat) = Except.ok 0 ↔
      x.num = y.num ∧ x.den = y.den) := by
  have hxd := hx.1
  have hyd := hy.1
  have hjn : 0 < j.natAbs := Int.natAbs_pos.2 hj
  have hyn : 0 < y.num.natAbs := Int.natAbs_pos.2 hy0
  have hyq : y.toRat ≠ 0 := fun h => hy0 ((big.RatRep.toRat_eq_zero y hyd).1 h)
  refine ⟨⟨big.RatRep.ofRat_toRat x hx, big.RatRep.ofRat_toRat y hy⟩,
    ⟨big.RatRep.norm_reduced _ _ (Nat.mul_pos hxd hyd), _, rfl,
      big.RatRep.Add_toRat x y hxd hyd⟩,
    ⟨big.RatRep.norm_reduced _ _ (Nat.mul_pos hxd hyd), _, rfl,
      big.RatRep.Sub_toRat x y hxd hyd⟩,
    ⟨big.RatRep.norm_reduced _ _ (Nat.mul_pos hxd hyd), _, rfl,
      big.RatRep.Mul_toRat x y hxd hyd⟩,
    ⟨big.RatRep.norm_reduced _ _ (Nat.mul_pos hyn hxd), x.toRat / y.toRat, ?_,
      big.RatRep.Quo_toRat x y hxd hyd hy0⟩,
    ⟨big.RatRep.norm_reduced _ _ hjn, (i : ℚ) / j, ?_, big.RatRep.NewRat_toRat i j hj⟩,
    ⟨big.RatRep.norm_reduced _ _ (Nat.mul_pos hjn Nat.one_pos), (i : ℚ) / j, ?_, ?_⟩,
    ⟨?_, ((big.RatRep.toRat_eq_zero x hxd).symm)⟩, ?_⟩
  · simp [RatioOps.Divide, big.Rat.Quo, Number.Ratio, hyq]
  · rw [IntOps_Divide_eq i j hj, if_neg hnd]
  · rw [BigIntOps_Divide_eq i j hj, if_neg hnd]
  · have h := big.RatRep.Quo_toRat (big.RatRep.SetInt i) (big.RatRep.SetInt j)
      Nat.one_pos Nat.one_pos hj
    simpa [big.RatRep.toRat, big.RatRep.SetInt] using h
  · rw [RatioOps_IsZero_eq]
    congr 1
    exact decide_eq_decide.2 (big.RatRep.toRat_eq_zero x hxd)
  · rw [compare_ratio_eq_iff, ← big.RatRep.toRat_inj x y hx hy]
    constructor
    · rintro ⟨h1, h2⟩
      exact Rat.ext h1 h2
    · intro h
      rw [h]
      exact ⟨rfl, rfl⟩

/-- C14 (witness): the Rationals 1/2 and 1/3, and the Integers 10 and 4, for
which `NewRat` stores 5 over 2. -/
theorem Ratio_results_reduced_witness :
    (big.RatRep.mk 1 2).reduced ∧ (big.RatRep.mk 1 3).reduced ∧
    ((big.RatRep.mk 1 2).Add (big.RatRep.mk 1 3)).reduced ∧
    (big.RatRep.NewRat 10 4).reduced ∧
    (∃ r, IntOps.Divide (Number.int 10) (Number.int 4) = Except.ok (Number.ratio r) ∧
      big.RatRep.ofRat r = big.RatRep.NewRat 10 4) ∧
    (CompareNumbers (Number.ratio (big.RatRep.mk 1 2).toRat)
        (Number.ratio (big.RatRep.mk 1 3).toRat) = Except.ok 0 ↔
      (1 : ℤ) = 1 ∧ (2 : ℕ) = 3) := by
  have hx : (big.RatRep.mk 1 2).reduced := ⟨by decide, by simp⟩
  have hy : (big.RatRep.mk 1 3).reduced := ⟨by decide, by simp⟩
  have h := Ratio_results_reduced (big.RatRep.mk 1 2) (big.RatRep.mk 1 3) 10 4 hx hy
    (by decide) (by decide) (by decide)
  exact ⟨hx, hy, h.2.1.1, h.2.2.2.2.2.1.1, h.2.2.2.2.2.1.2, h.2.2.2.2.2.2.2.2⟩

theorem big.RatRep.NewRat_ten_four : big.RatRep.NewRat 10 4 = big.RatRep.mk 5 2 := by
  decide


theorem compare_unreduced_pairs :
    CompareNumbers (Number.ratio (big.RatRep.mk 1 2).toRat)
        (Number.ratio (big.RatRep.mk 2 4).toRat) = Except.ok 0 ∧
      (big.RatRep.mk 1 2).num ≠ (big.RatRep.mk 2 4).num ∧ ¬ (big.RatRep.mk 2 4).reduced := by
  have e : (big.RatRep.mk 1 2).toRat = (big.RatRep.mk 2 4).toRat := by
    norm_num [big.RatRep.toRat]
  refine ⟨?_, by decide, ?_⟩
  · rw [e, compare_ratio_eq_iff]
    exact ⟨rfl, rfl⟩
  · rintro ⟨_, h⟩
    revert h
    decide

/-! ### The comparator on operands converted without loss -/

theorem Lt_of_exactIn (ops : Ops) (x y : Number) (hx : x.exactIn ops) (hy : y.exactIn ops) :
    ops.Lt x y = Except.ok (decide (x.key < y.key)) := by
  cases ops with
  | IntOps =>
    simp only [Number.exactIn] at hx hy
    simp only [Ops.Lt, IntOps.Lt]
    rw [← hx, ← hy]
    congr 1
    exact decide_eq_decide.2 ((key_coe_lt _ _).trans Int.cast_lt).symm
  | DoubleOps =>
    obtain ⟨hx1, hx2⟩ := hx
    obtain ⟨hy1, hy2⟩ := hy
    simp only [Ops.Lt, DoubleOps.Lt]
    rw [Float64.lt_eq_ext _ _ hx1 hy1, hx2, hy2]
  | BigIntOps =>
    obtain ⟨a, ha, hax⟩ := hx
    obtain ⟨b, hb, hby⟩ := hy
    simp only [Ops.Lt, BigIntOps.Lt, ha, hb, big.Int.Cmp]
    rw [← hax, ← hby]
    congr 1
    exact decide_eq_decide.2
      ((cmp3_neg_iff a b).trans ((key_coe_lt _ _).trans Int.cast_lt).symm)
  | BigFloatOps =>
    obtain ⟨a, ha, hax⟩ := hx
    obtain ⟨b, hb, hby⟩ := hy
    simp only [Ops.Lt, BigFloatOps.Lt, ha, hb]
    rw [← hax, ← hby]
    congr 1
    exact decide_eq_decide.2 (big.Float.Cmp_neg_iff a b)
  | RatioOps =>
    obtain ⟨a, ha, hax⟩ := hx
    obtain ⟨b, hb, hby⟩ := hy
    simp only [Ops.Lt, RatioOps.Lt, ha, hb, big.Rat.Cmp]
    rw [← hax, ← hby]
    congr 1
    exact decide_eq_decide.2 ((cmp3_neg_iff a b).trans (key_coe_lt _ _).symm)

theorem CompareNumbers_comparedExactly (x y : Number) (h : comparedExactly x y) :
    CompareNumbers x y
      = Except.ok (if x.key < y.key then -1 else if y.key < x.key then 1 else 0) := by
  unfold CompareNumbers
  simp only []
  rw [Lt_of_exactIn _ x y h.1 h.2, Lt_of_exactIn _ y x h.2 h.1]
  exact compare_ok _ _

theorem doubleExact_ofInt (i : ℤ) (h : doubleExact i) :
    Float64.ofInt i ≠ Float64.nan ∧
      (Float64.ofInt i).ext = (((i : ℚ) : WithTop ℚ) : WithBot (WithTop ℚ)) := by
  have h1 : (Float64.ofInt i).SetFloat64 = some (i : ℚ) := (Int_Double_exact i h).1
  obtain ⟨neg, m, e, hd, hv⟩ := SetFloat64_some _ _ h1
  rw [hd]
  refine ⟨fun hc => Float64.noConfusion hc, ?_⟩
  simp only [Float64.ext, hv]

theorem Rat_Float64_of_rep (r : ℚ) (h : ∃ d : Float64, d.WF ∧ d.SetFloat64 = some r) :
    Rat_Float64 r ≠ Float64.nan ∧
      (Rat_Float64 r).ext = ((r : WithTop ℚ) : WithBot (WithTop ℚ)) := by
  obtain ⟨d, hw, hv⟩ := h
  obtain ⟨neg, m, e, hd, hq⟩ := SetFloat64_some _ _ hv
  subst hd
  subst hq
  refine ⟨?_, ?_⟩
  · rw [Rat_Float64_finVal neg m e hw]
    exact fun hc => Float64.noConfusion hc
  · rw [Rat_Float64_ext neg m e hw]
    rfl

theorem big.Float.SetInt_ext (b : ℤ) :
    (big.Float.SetInt b).ext = (((b : ℚ) : WithTop ℚ) : WithBot (WithTop ℚ)) := by
  have h := sign_natAbs b
  simp only [big.Float.SetInt, big.Float.ext, finVal]
  rw [zpow_zero, mul_one]
  simp only [decide_eq_true_eq] at h ⊢
  rw [h]

theorem floatSafe_exactIn_Double (x : Number) (hx : x.floatSafe)
    (hk : GetOps (Object.number x) ≠ Ops.BigFloatOps) : x.exactIn Ops.DoubleOps := by
  cases x with
  | int i => exact doubleExact_ofInt i hx
  | double d => exact ⟨hx, rfl⟩
  | bigInt b =>
    obtain ⟨h1, h2⟩ := hx
    have h := doubleExact_ofInt b h2
    simpa only [Number.exactIn, Number.Double, Number.key, wrap64_of_inInt64 h1] using h
  | bigFloat b => exact absurd rfl hk
  | ratio r => exact Rat_Float64_of_rep r hx

theorem floatSafe_exactIn_BigFloat (x : Number) (hx : x.floatSafe) :
    x.exactIn Ops.BigFloatOps := by
  cases x with
  | int i => exact (Int_Double_exact i hx).2
  | double d => exact big.NewFloat_ext d hx
  | bigInt b => exact ⟨_, rfl, big.Float.SetInt_ext b⟩
  | bigFloat b => exact ⟨b, rfl, rfl⟩
  | ratio r =>
    obtain ⟨h1, h2⟩ := Rat_Float64_of_rep r hx
    obtain ⟨f, hf, he⟩ := big.NewFloat_ext _ h1
    exact ⟨f, hf, he.trans h2⟩

theorem comparedExactly_of_isExact (x y : Number) (hx : x.isExact) (hy : y.isExact) :
    comparedExactly x y := by
  cases x <;> cases y <;> simp only [Number.isExact] at hx hy <;>
    simp [comparedExactly, GetOps, Ops.Combine, IntOps.Combine, BigIntOps.Combine,
      RatioOps.Combine, Number.exactIn, Number.Int, Number.BigInt, Number.Ratio, Number.key]

theorem comparedExactly_of_floatSafe (x y : Number) (hx : x.floatSafe) (hy : y.floatSafe) :
    comparedExactly x y := by
  by_cases he : x.isExact ∧ y.isExact
  · exact comparedExactly_of_isExact x y he.1 he.2
  · by_cases hb : GetOps (Object.number x) = Ops.BigFloatOps ∨
        GetOps (Object.number y) = Ops.BigFloatOps
    · have hops : (GetOps (Object.number x)).Combine (GetOps (Object.number y))
          = Ops.BigFloatOps := by
        cases x <;> cases y <;> simp [GetOps] at hb <;> rfl
      unfold comparedExactly
      rw [hops]
      exact ⟨floatSafe_exactIn_BigFloat x hx, floatSafe_exactIn_BigFloat y hy⟩
    · rw [not_or] at hb
      have hops : (GetOps (Object.number x)).Combine (GetOps (Object.number y))
          = Ops.DoubleOps := by
        cases x <;> cases y <;> simp [GetOps, Number.isExact] at hb he <;> rfl
      unfold comparedExactly
      rw [hops]
      exact ⟨floatSafe_exactIn_Double x hx hb.1, floatSafe_exactIn_Double y hy hb.2⟩

/-- C6 (amended): `CompareNumbers` is transitive on three numbers whenever each
of the three comparisons converts both of its operands without loss into the
table it is made in. That is so for any mix of numbers of the exact kinds
(Integer, BigInteger, Rational), and for any mix, exact and floating kinds
together, of Integers a double holds exactly (all of magnitude at most `2^53`),
Floats other than NaN, BigIntegers within the `int` range that a double holds
exactly, BigFloats, and Rationals that are the value of a double. Then every
pair has a result, `compare(x, y) <= 0` and `compare(y, z) <= 0` give
`compare(x, z) <= 0`, and `compare(x, y) = 0` and `compare(y, z) = 0` give
`compare(x, z) = 0`. -/
theorem CompareNumbers_transitive (x y z : Number)
    (h : (x.isExact ∧ y.isExact ∧ z.isExact) ∨
      (x.floatSafe ∧ y.floatSafe ∧ z.floatSafe) ∨
      (comparedExactly x y ∧ comparedExactly y z ∧ comparedExactly x z)) :
    ∃ cxy cyz cxz : ℤ,
      CompareNumbers x y = Except.ok cxy ∧ CompareNumbers y z = Except.ok cyz ∧
      CompareNumbers x z = Except.ok cxz ∧
      (cxy ≤ 0 → cyz ≤ 0 → cxz ≤ 0) ∧ (cxy = 0 → cyz = 0 → cxz = 0) := by
  have hall : comparedExactly x y ∧ comparedExactly y z ∧ comparedExactly x z := by
    rcases h with ⟨hx, hy, hz⟩ | ⟨hx, hy, hz⟩ | h
    · exact ⟨comparedExactly_of_isExact x y hx hy, comparedExactly_of_isExact y z hy hz,
        comparedExactly_of_isExact x z hx hz⟩
    · exact ⟨comparedExactly_of_floatSafe x y hx hy, comparedExactly_of_floatSafe y z hy hz,
        comparedExactly_of_floatSafe x z hx hz⟩
    · exact h
  refine ⟨_, _, _, CompareNumbers_comparedExactly x y hall.1,
    CompareNumbers_comparedExactly y z hall.2.1, CompareNumbers_comparedExactly x z hall.2.2,
    ?_, ?_⟩
  · rw [cmp3_le_iff, cmp3_le_iff, cmp3_le_iff]
    exact fun h1 h2 => le_trans h1 h2
  · rw [cmp3_eq_iff, cmp3_eq_iff, cmp3_eq_iff]
    exact fun h1 h2 => h1.trans h2

/-- C6 (witness): the Integer 3, the Float 3.0 and the Integer 4, kinds mixed. -/
theorem CompareNumbers_transitive_witness :
    ((Number.int 3).floatSafe ∧ (Number.double (Float64.finite false 6755399441055744 (-51))).WF ∧
      (Number.double (Float64.finite false 6755399441055744 (-51))).floatSafe ∧
      (Number.int 4).floatSafe) ∧
    ∃ cxy cyz cxz : ℤ,
      CompareNumbers (Number.int 3)
        (Number.double (Float64.finite false 6755399441055744 (-51))) = Except.ok cxy ∧
      CompareNumbers (Number.double (Float64.finite false 6755399441055744 (-51)))
        (Number.int 4) = Except.ok cyz ∧
      CompareNumbers (Number.int 3) (Number.int 4) = Except.ok cxz ∧
      (cxy ≤ 0 → cyz ≤ 0 → cxz ≤ 0) ∧ (cxy = 0 → cyz = 0 → cxz = 0) :=
  ⟨⟨Or.inl (by norm_num), by decide, fun hc => Float64.noConfusion hc, Or.inl (by norm_num)⟩,
    CompareNumbers_transitive (Number.int 3)
      (Number.double (Float64.finite false 6755399441055744 (-51))) (Number.int 4)
      (Or.inr (Or.inl ⟨Or.inl (by norm_num), fun hc => Float64.noConfusion hc,
        Or.inl (by norm_num)⟩))⟩

end Joker
